import Mathlib

/-!
# RecoverPointerMD: a shallow embedding of `src/ArrayInference/recoverPointerMD.cpp`

The LLVM value graph is a map from value identities (`Nat`) to nodes, the
session object (memo cache, validity flag, emitted statements) is an explicit
`State`, and every `int *var` out-parameter is passed in and returned.
Functions that recurse through the possibly cyclic operand graph carry a fuel
argument that bounds the recursion depth; `none` means that no result is
defined (the fuel ran out, or the C++ has undefined behaviour there).
-/

namespace RecoverPointerMD

/-! ## Data model -/

/-- An LLVM type handle; its structure is only seen through the collaborators. -/
abbrev Ty := Nat

/-- The value kinds the recovery distinguishes, with their operands. -/
inductive Node where
  | load (ptr : Nat)
  | store (val ptr : Nat)
  | gep (ptr : Nat) (idx : List Nat)
  | bitcast (op : Nat)
  | sext (op : Nat)
  | zext (op : Nat)
  | ptrtoint (op : Nat)
  | inttoptr (op : Nat)
  | select (c t f : Nat)
  | phi (incoming : List Nat)
  | call (ops : List Nat)
  | icmp (a b : Nat)
  | fcmp (a b : Nat)
  | alloca (size : Nat)
  | inst (ops : List Nat)
  | constInt (n : Int)
  | const
  | global
  | argument
  | other
deriving DecidableEq, Repr

namespace Node

/-- Holds when `isa<Instruction>` does. -/
def isInstruction : Node → Bool
  | load _ | store _ _ | gep _ _ | bitcast _ | sext _ | zext _ | ptrtoint _
  | inttoptr _ | select _ _ _ | phi _ | call _ | icmp _ _ | fcmp _ _ | alloca _
  | inst _ => true
  | _ => false

/-- Holds when `isa<Constant>` does; a global variable is a constant. -/
def isConstant : Node → Bool
  | constInt _ | const | global => true
  | _ => false

def isLoad : Node → Bool
  | load _ => true
  | _ => false

def isStore : Node → Bool
  | store _ _ => true
  | _ => false

def isGEP : Node → Bool
  | gep _ _ => true
  | _ => false

def isBitCast : Node → Bool
  | bitcast _ => true
  | _ => false

def isPHI : Node → Bool
  | phi _ => true
  | _ => false

def isCall : Node → Bool
  | call _ => true
  | _ => false

/-- Holds when `isa<ICmpInst>` does: an integer comparison. -/
def isICmp : Node → Bool
  | icmp _ _ => true
  | _ => false

/-- Holds when `isa<CmpInst>` does: an integer or a floating-point comparison. -/
def isCmp : Node → Bool
  | icmp _ _ | fcmp _ _ => true
  | _ => false

def isAlloca : Node → Bool
  | alloca _ => true
  | _ => false

def isGlobal : Node → Bool
  | global => true
  | _ => false

def isArgument : Node → Bool
  | argument => true
  | _ => false

/-- The operand list of `getNumOperands` / `getOperand`. -/
def operands : Node → List Nat
  | load p => [p]
  | store v p => [v, p]
  | gep p idx => p :: idx
  | bitcast o | sext o | zext o | ptrtoint o | inttoptr o => [o]
  | select c t f => [c, t, f]
  | phi xs => xs
  | call xs => xs
  | icmp a b => [a, b]
  | fcmp a b => [a, b]
  | alloca n => [n]
  | inst xs => xs
  | _ => []

/-- A `ConstantInt` that is zero, as `GetElementPtrInst::hasAllZeroIndices` tests it. -/
def isZeroConstInt : Node → Bool
  | constInt n => n == 0
  | _ => false

end Node

/-- Debug metadata as the type navigator sees it: a null reference, the
debug-type descriptors (basic, composite, derived, subroutine), and metadata
that is no type descriptor (a subrange, a string). The element list of a
composite is absent (a null reference) or a tuple of metadata. -/
inductive MD where
  | null
  | basic (name : String)
  | composite (elements : Option (List MD)) (baseType : MD)
  | derived (baseType : MD)
  | subroutine
  | other
deriving Repr

namespace MD

/-- Holds when `isa<DIType>` does. -/
def isDIType : MD → Bool
  | basic _ | composite _ _ | derived _ | subroutine => true
  | _ => false

def isComposite : MD → Bool
  | composite _ _ => true
  | _ => false

def isNull : MD → Bool
  | null => true
  | _ => false

end MD

/-- The session object: validity flag, memo cache `ComputedValues`, and the
statements and slot counter owned by the emitter. -/
structure State where
  valid : Bool
  ComputedValues : List (Nat × Int × String)
  emitted : List (Int × String)
  index : Int
deriving DecidableEq, Repr

/-- What a recovery call hands back: the text, the content of `*var`, the session. -/
abbrev Res := String × Int × State

/-- The collaborators of the engine (name resolver, constant evaluator, data
layout, call classifier, emitter, and the builders of the base class), and
the value graph itself. -/
structure Env where
  node : Nat → Node
  NAME : String
  getOriginalName : Nat → String
  nameInFile : Nat → String
  findEnclosingFunc : Nat → Option Nat
  findVar : Nat → Nat → Option MD
  getUniqueConstantInteger : Nat → Option Int
  isMallocCall : Nat → Bool
  getPHINode : Nat → String → Int → State → Res
  getSelExp : Nat → String → Int → State → Res
  getGenericExp : Nat → String → Int → State → Res
  getAccessString : Nat → String → Int → State → Res
  insertCommand : Int → String → State → Int × State
  getPointerOperandType : Nat → Ty
  getSrcTy : Nat → Ty
  getDestTy : Nat → Ty
  isStructTy : Ty → Bool
  getInternalType : Ty → Int → Ty
  getSizeToType : Ty → Nat
  TryConvertToInteger : String → Option Int
  uninit : Int

/-- Modelled from the spec: `isValid` of the base class, which is not in the
sources; the validity tracker is a single sticky flag. -/
def isValid (s : State) : Bool := s.valid

/-- Modelled from the spec: `setValidFalse` of the base class, which is not in
the sources; it trips the sticky flag. -/
def setValidFalse (s : State) : State := { s with valid := false }

/-- Modelled from the spec: `selectComputedValue` of the base class, which is
not in the sources; the memo cache maps a value to its `(slot, expression)`. -/
def selectComputedValue (s : State) (V : Nat) : Option (Int × String) :=
  (s.ComputedValues.find? (fun e => e.1 == V)).map (fun e => e.2)

/-- Modelled from the spec: `insertComputedValue` of the base class, which is
not in the sources; an entry is created once per value and never evicted. -/
def insertComputedValue (s : State) (V : Nat) (var : Int) (result : String) : State :=
  match selectComputedValue s V with
  | some _ => s
  | none => { s with ComputedValues := (V, var, result) :: s.ComputedValues }

/-- The text `NAME[slot]`. -/
def slotText (E : Env) (slot : Int) : String :=
  E.NAME ++ "[" ++ toString slot ++ "]"

/-! ## Graph predicates -/

/-- The operand loop shared by `hasGEPasOperand` and `hasLOADasOperand`: both
call `hasGEPasOperand` (here `rec`) on every operand not yet in `KV`. -/
def operandLoop (rec : Nat → List Nat → Option (Bool × List Nat)) :
    List Nat → List Nat → Option (Bool × List Nat)
  | [], KV => some (false, KV)
  | o :: os, KV =>
    if o ∈ KV then operandLoop rec os KV
    else
      match rec o KV with
      | none => none
      | some (true, KV1) => some (true, KV1)
      | some (false, KV1) => operandLoop rec os KV1

/-- The search `hasGEPasOperand(V, KV)`; the map `KV` is the list of its keys. -/
def hasGEPasOperandKV (E : Env) : Nat → Nat → List Nat → Option (Bool × List Nat)
  | 0, _, _ => none
  | fuel + 1, V, KV =>
    if !(E.node V).isInstruction then some (false, KV)
    else
      let KV1 := KV.insert V
      if (E.node V).isGEP then some (true, KV1)
      else operandLoop (hasGEPasOperandKV E fuel) (E.node V).operands KV1

/-- The entry `hasGEPasOperand(V)`, which starts from an empty map. -/
def hasGEPasOperand (E : Env) (fuel : Nat) (V : Nat) : Option Bool :=
  (hasGEPasOperandKV E fuel V []).map Prod.fst

/-- The search `hasLOADasOperand(V, KV)`; its loop calls `hasGEPasOperand` on the
operands. -/
def hasLOADasOperandKV (E : Env) (fuel : Nat) (V : Nat) (KV : List Nat) :
    Option (Bool × List Nat) :=
  if !(E.node V).isInstruction then some (false, KV)
  else
    let KV1 := KV.insert V
    if (E.node V).isLoad then some (true, KV1)
    else operandLoop (hasGEPasOperandKV E fuel) (E.node V).operands KV1

/-- The entry `hasLOADasOperand(V)`, which starts from an empty map. -/
def hasLOADasOperand (E : Env) (fuel : Nat) (V : Nat) : Option Bool :=
  (hasLOADasOperandKV E fuel V []).map Prod.fst

/-- One operand edge out of an instruction node. -/
def Edge (E : Env) (u w : Nat) : Prop :=
  (E.node u).isInstruction = true ∧ w ∈ (E.node u).operands

/-- Reachability along operand edges through instruction nodes. -/
inductive Reach (E : Env) : Nat → Nat → Prop where
  | refl (v : Nat) : Reach E v v
  | step {u w x : Nat} : Edge E u w → Reach E w x → Reach E u x

/-! ## Debug-type navigator -/

/-- The descent `getDITypeElement(dity, elem)`. `md->getNumOperands() < elem` compares as
unsigned 32-bit; `none` is a read outside the element list or a `dyn_cast` of
a null reference. -/
def getDITypeElement : MD → Int → Option MD
  | .basic n, _ => some (.basic n)
  | .composite els base, elem =>
    match els with
    | none => none
    | some ops =>
      if ops.length < (elem % 4294967296).toNat ∧ base.isNull then none
      else if ops.length < (elem % 4294967296).toNat ∧ base.isComposite then
        getDITypeElement base elem
      else
        match ops.get? (elem % 4294967296).toNat with
        | none => none
        | some .null => none
        | some m => if m.isDIType then some m else some (.composite els base)
  | .derived base, _ =>
    match base with
    | .null => none
    | b => if b.isDIType then some b else some (.derived base)
  | .subroutine, _ => some .subroutine
  | _, _ => none

/-! ## Per-kind builders

Each builder takes the dispatcher as `rec`; `getAccessStringMD` below closes
the recursion. -/

/-- The loop of `getBasePtr` and of `recoverGEPMD` that walks past loads and
address computations; `stop` is the `break` test of `recoverGEPMD`. -/
def walkBasePtr (E : Env) (stop : Bool) : Nat → Nat → Option Nat
  | 0, _ => none
  | fuel + 1, B =>
    if (E.node B).isLoad || (E.node B).isGEP then
      if stop then some B
      else
        let B1 := match E.node B with
          | .load p => p
          | _ => B
        let B2 := match E.node B1 with
          | .gep p _ => p
          | _ => B1
        walkBasePtr E stop fuel B2
    else some B

/-- The text of `std::to_string` on a double that holds the whole number `n`,
negative when `neg`. -/
def doubleText (neg : Bool) (n : Nat) : String :=
  (if neg then "-" else "") ++ toString n ++ ".000000"

/-- The value of `double factor = s2 / s1`: the quotient of the two unsigned
32-bit sizes; `none` when the divisor is zero. -/
def bitcastFactor (E : Env) (V : Nat) : Option Nat :=
  let s1 := E.getSizeToType (E.getSrcTy V) % 4294967296
  let s2 := E.getSizeToType (E.getDestTy V) % 4294967296
  if s1 = 0 then none else some (s2 / s1)

/-- The number of binary digits of `k`, counted with at most `fuel` halvings. -/
def bitLength : Nat → Nat → Nat
  | 0, _ => 0
  | fuel + 1, k => if k = 0 then 0 else bitLength fuel (k / 2) + 1

/-- The whole number `k` rounded to a multiple of `2 ^ sh`, to the nearest one
and to the even one on a tie. -/
def roundToEven (k sh : Nat) : Nat :=
  let q := k / 2 ^ sh
  let r := k % 2 ^ sh
  if 2 * r < 2 ^ sh then q * 2 ^ sh
  else if 2 ^ sh < 2 * r then (q + 1) * 2 ^ sh
  else if q % 2 = 0 then q * 2 ^ sh
  else (q + 1) * 2 ^ sh

/-- The whole number `k` as a double holds it: itself up to 2^53, beyond that
rounded to 53 significant binary digits. -/
def roundDouble (k : Nat) : Nat :=
  if k ≤ 9007199254740992 then k else roundToEven k (bitLength k k - 53)

/-- The text of `std::to_string(num * factor)`: `num` is converted to double,
multiplied by the whole-number double `factor`, and printed with six decimals;
the sign is the one of `num`, also on a zero product. -/
def foldedText (num : Int) (factor : Nat) : String :=
  doubleText (decide (num < 0)) (roundDouble (roundDouble num.natAbs * factor))

/-- The builder `recoverBitcastOf(V, name, var, DT)`; `none` where the source
size is zero and the division is not defined. -/
def recoverBitcastOf (E : Env) (V : Nat) (name : String) (var : Int) (s : State) :
    Option Res :=
  match E.node V with
  | .bitcast op =>
    if E.getOriginalName V ≠ "" then some (E.getOriginalName V, var, s)
    else
      match bitcastFactor E V with
      | none => none
      | some factor =>
        match E.getAccessString op name var s with
        | (result2, var1, s1) =>
          match (if var1 = -1 then E.TryConvertToInteger result2 else none) with
          | some num => some (foldedText num factor, var1, s1)
          | none =>
            let result := doubleText false factor ++ " * " ++ (result2 ++ ";\n")
            some (result, var1, insertComputedValue s1 V var1 result)
  | _ => some ("", var, s)

/-- The builder `recoverLoadMD(V, name, var, DT)`. -/
def recoverLoadMD (E : Env) (rec : Nat → String → Int → State → Option Res)
    (V : Nat) (name : String) (var : Int) (s : State) : Option Res :=
  match E.node V with
  | .load ptr =>
    match rec ptr name var s with
    | none => none
    | some (result, var1, s1) =>
      if name = result then some ("", var1, s1) else some (result, var1, s1)
  | _ => some ("", var, setValidFalse s)

/-- The builder `recoverStoreMD(V, name, var, DT)`; the code after its early
return is dead. -/
def recoverStoreMD (E : Env) (rec : Nat → String → Int → State → Option Res)
    (V : Nat) (name : String) (var : Int) (s : State) : Option Res :=
  match E.node V with
  | .store _ ptr =>
    match rec ptr name (-1) s with
    | none => none
    | some (rPtr, op1, s1) => some (rPtr, op1, s1)
  | _ => some ("", var, setValidFalse s)

/-- The index loop of `recoverGEPMD`, over the index operands still to visit. -/
def gepLoop (E : Env) (rec : Nat → String → Int → State → Option Res) (name : String) :
    List Nat → Ty → MD → String → State → Option (String × State)
  | [], _, _, result, s => some (result, s)
  | x :: xs, ty, dity, result, s =>
    if E.isStructTy ty then some ("", s)
    else
      match rec x name (-1) s with
      | none => none
      | some (tmpRes, op, s1) =>
        let tmpRes1 := if op ≠ -1 then slotText E op else tmpRes
        match getDITypeElement dity 0 with
        | none => none
        | some dity1 =>
          gepLoop E rec name xs (E.getInternalType ty 0) dity1
            ((result ++ "[") ++ (tmpRes1 ++ "]")) s1

/-- The entry of the index loop of `recoverGEPMD`: the index operands to
visit, `ty` and `dity`. Under a pointer operand that is itself an address
computation the first index is skipped and both types advance one level. -/
def gepStart (E : Env) (V ptr : Nat) (idx : List Nat) (dity : MD) :
    Option (List Nat × Ty × MD) :=
  let ty := E.getPointerOperandType V
  if (E.node ptr).isGEP then
    match getDITypeElement dity 0 with
    | none => none
    | some dity1 => some (idx.drop 1, E.getInternalType ty 0, dity1)
  else some (idx, ty, dity)

/-- The builder `recoverGEPMD(V, name, var, DT)`. -/
def recoverGEPMD (E : Env) (fuel : Nat) (rec : Nat → String → Int → State → Option Res)
    (V : Nat) (name : String) (var : Int) (s : State) : Option Res :=
  match E.node V with
  | .gep ptr idx =>
    if idx.all (fun i => (E.node i).isZeroConstInt) then rec ptr name var s
    else
      match walkBasePtr E (decide (E.getOriginalName V ≠ "")) fuel ptr with
      | none => none
      | some BasePtrV =>
        match E.findEnclosingFunc BasePtrV with
        | none => some ("", var, s)
        | some F =>
          match E.findVar BasePtrV F with
          | none => some ("", var, s)
          | some .null => none
          | some dity =>
            if !dity.isDIType then some ("", var, s)
            else
              match rec ptr name (-1) s with
              | none => none
              | some (result0, opPtr, s1) =>
                let result := if opPtr ≠ -1 then slotText E opPtr else result0
                match gepStart E V ptr idx dity with
                | none => none
                | some (xs, ty, dity1) =>
                  (gepLoop E rec name xs ty dity1 result s1).map (fun r => (r.1, var, r.2))
  | _ => some ("", var, s)

/-- The name-recovery path `recoverNameOf(V, name, var, DT)`. -/
def recoverNameOf (E : Env) (fuel : Nat) (rec : Nat → String → Int → State → Option Res)
    (V : Nat) (name : String) (var : Int) (s : State) : Option Res :=
  let n := E.node V
  if !n.isLoad && !n.isStore && (!n.isAlloca && !n.isGlobal)
      && (!n.isGEP && !n.isArgument && !n.isCall) && !n.isPHI then
    some ("", var, s)
  else
    let nameF := E.nameInFile V
    if n.isAlloca || n.isGlobal || n.isArgument || n.isCall || n.isPHI then
      if name = nameF then some ("0", -1, s)
      else if nameF = "" then some ("", -1, setValidFalse s)
      else some (nameF, -1, s)
    else if n.isLoad then recoverLoadMD E rec V name (-1) s
    else if n.isStore then recoverStoreMD E rec V name (-1) s
    else if E.getOriginalName V ≠ "" then some (E.getOriginalName V, -1, s)
    else recoverGEPMD E fuel rec V name (-1) s

/-- The shared body of `getPtrToIntExpMD` and `getIntToPtrExpMD`, which differ
in the instruction class only; `op` is operand 0 and the local `op1` starts
with the indeterminate content `E.uninit`. -/
def castExpMD (E : Env) (rec : Nat → String → Int → State → Option Res)
    (op : Nat) (name : String) (var : Int) (s : State) : Option Res :=
  match rec op name E.uninit s with
  | none => none
  | some (expression, op1, s1) =>
    if op1 = -1 then some (expression, var, s1)
    else
      let stmt := (expression ++ ((("(long long int) " ++ E.NAME) ++ "[")
        ++ toString op1 ++ "]")) ++ ";\n"
      match E.insertCommand var stmt s1 with
      | (var1, s2) => some ("", var1, s2)

/-- The builder `getPtrToIntExpMD(I, name, var, DT)`; `op` is operand 0 of `I`. -/
def getPtrToIntExpMD (E : Env) (rec : Nat → String → Int → State → Option Res)
    (op : Nat) (name : String) (var : Int) (s : State) : Option Res :=
  castExpMD E rec op name var s

/-- The builder `getIntToPtrExpMD(I, name, var, DT)`; `op` is operand 0 of `I`. -/
def getIntToPtrExpMD (E : Env) (rec : Nat → String → Int → State → Option Res)
    (op : Nat) (name : String) (var : Int) (s : State) : Option Res :=
  castExpMD E rec op name var s

/-- Memoize a builder's result under `V`, as every kind branch of the dispatcher does. -/
def memoize (V : Nat) (r : Res) : Res :=
  (r.1, r.2.1, insertComputedValue r.2.2 V r.2.1 r.1)

/-! ## Dispatcher -/

/-- The part of `getAccessStringMD` after the name-recovery path came back
empty: the constant path, the non-instruction and call cases, the comparison,
and the per-kind builders. `var` and `s` are `*var` and the session there. -/
def dispatchKind (E : Env) (rec : Nat → String → Int → State → Option Res)
    (V : Nat) (ptrName : String) (var : Int) (s : State) : Option Res :=
  if (E.node V).isConstant then
    match E.getUniqueConstantInteger V with
    | some value => some (memoize V (toString value, var, s))
    | none => some ("0", var, setValidFalse s)
  else if !(E.node V).isInstruction || (E.node V).isPHI then
    some ("", var, setValidFalse s)
  else if (E.node V).isCall then
    if !E.isMallocCall V then some ("", var, setValidFalse s)
    else if E.nameInFile V ≠ ptrName then
      some (memoize V (E.nameInFile V, var,
        if E.nameInFile V = "" then setValidFalse s else s))
    else
      some (memoize V ("0", var, if E.nameInFile V = "" then setValidFalse s else s))
  else if (E.node V).isICmp then some ("", var, s)
  else
    match E.node V with
    | .zext op => (rec op ptrName var s).map (memoize V)
    | .sext op => (rec op ptrName var s).map (memoize V)
    | .bitcast op => some (memoize V (E.getAccessString op ptrName var s))
    | .select _ _ _ => some (memoize V (E.getSelExp V ptrName var s))
    | .ptrtoint op => (getPtrToIntExpMD E rec op ptrName var s).map (memoize V)
    | .inttoptr op => (getIntToPtrExpMD E rec op ptrName var s).map (memoize V)
    | _ => some (memoize V (E.getGenericExp V ptrName var s))

/-- The dispatcher `getAccessStringMD(V, ptrName, var, DT)`. -/
def getAccessStringMD (E : Env) : Nat → Nat → String → Int → State → Option Res
  | 0, _, _, _, _ => none
  | fuel + 1, V, ptrName, var, s =>
    if !isValid s then some ("", var, s)
    else
      match selectComputedValue s V with
      | some (slot, name) => some (name, slot, s)
      | none =>
        if E.getOriginalName V ≠ "" then some (E.getOriginalName V, -1, s)
        else
          match E.getPHINode V ptrName (-1) s with
          | (name, var1, s1) =>
            if name ≠ "" then some (memoize V (name, var1, s1))
            else
              match recoverNameOf E fuel (getAccessStringMD E fuel) V ptrName var1 s1 with
              | none => none
              | some (name2, var2, s2) =>
                if name2 ≠ "" then some (memoize V (name2, var2, s2))
                else dispatchKind E (getAccessStringMD E fuel) V ptrName var2 s2

/-! ## Runs of the index loop -/

/-- The bracketed subscripts `[e1]...[en]`. -/
def brackets : List String → String
  | [] => ""
  | e :: es => ("[" ++ (e ++ "]")) ++ brackets es

/-- A run `IndexRun E rec name xs ty dity s es ty1 dity1 s1`: from the session `s`
the index operands `xs` recover one after another, none of them at a struct
level and each with a defined descent of the debug type, to the subscript
texts `es` (the recovered text, or the text `NAME[slot]` when a slot came
back), leaving the loop at `ty1`, `dity1` and the session `s1`. -/
inductive IndexRun (E : Env) (rec : Nat → String → Int → State → Option Res)
    (name : String) :
    List Nat → Ty → MD → State → List String → Ty → MD → State → Prop where
  | nil (ty : Ty) (dity : MD) (s : State) : IndexRun E rec name [] ty dity s [] ty dity s
  | cons {x : Nat} {xs : List Nat} {ty ty1 : Ty} {dity dity1 dity2 : MD}
      {s s1 s2 : State} {e : String} {op : Int} {es : List String} :
      E.isStructTy ty = false →
      rec x name (-1) s = some (e, op, s1) →
      getDITypeElement dity 0 = some dity1 →
      IndexRun E rec name xs (E.getInternalType ty 0) dity1 s1 es ty1 dity2 s2 →
      IndexRun E rec name (x :: xs) ty dity s
        ((if op ≠ -1 then ((E.NAME ++ "[") ++ toString op) ++ "]" else e) :: es)
        ty1 dity2 s2

/-! ## Search invariants -/

/-- The instruction nodes below `N` that the search has not yet marked. -/
def unvisited (E : Env) (N : Nat) (KV : List Nat) : Finset Nat :=
  (Finset.range N).filter (fun u => (E.node u).isInstruction = true ∧ u ∉ KV)

/-- A marked node is settled in `KV`: it is an instruction other than an
address computation and its instruction operands are marked as well. -/
def Settled (E : Env) (KV : List Nat) (u : Nat) : Prop :=
  (E.node u).isInstruction = true ∧ (E.node u).isGEP = false ∧
    ∀ o ∈ (E.node u).operands, (E.node o).isInstruction = true → o ∈ KV

/-- What one call of the search on `V` from the map `KV` guarantees. -/
def SearchSpec (E : Env) (V : Nat) (KV : List Nat) (r : Bool × List Nat) : Prop :=
  (∀ u ∈ KV, u ∈ r.2) ∧ ((E.node V).isInstruction = true → V ∈ r.2) ∧
    (r.1 = true → (E.node V).isInstruction = true ∧
      ∃ w, Reach E V w ∧ (E.node w).isGEP = true) ∧
    (r.1 = false → ∀ u ∈ r.2, u ∉ KV → Settled E r.2 u)

/-! ## Memo cache order -/

/-- Every memo entry of `s` is still an entry of `s1`. -/
def CacheLe (s s1 : State) : Prop :=
  ∀ u p, selectComputedValue s u = some p → selectComputedValue s1 u = some p

/-- The text `(long long int) NAME[slot];` with its line end. -/
def castText (E : Env) (slot : Int) : String :=
  (((("(long long int) " ++ E.NAME) ++ "[") ++ toString slot) ++ "]") ++ ";\n"

/-- A base-class builder never turns an invalid session valid again. -/
def KeepsInvalid (f : Nat → String → Int → State → Res) : Prop :=
  ∀ V n var s, s.valid = false → (f V n var s).2.2.valid = false

/-- A session with the default collaborators: no names, no constants, the
base-class builders return nothing and the emitter numbers its statements. -/
def baseEnv : Env where
  node := fun _ => .other
  NAME := "NAME"
  getOriginalName := fun _ => ""
  nameInFile := fun _ => ""
  findEnclosingFunc := fun _ => some 0
  findVar := fun _ _ => some (.derived (.basic "int"))
  getUniqueConstantInteger := fun _ => none
  isMallocCall := fun _ => false
  getPHINode := fun _ _ var s => ("", var, s)
  getSelExp := fun _ _ var s => ("", var, s)
  getGenericExp := fun _ _ var s => ("", var, s)
  getAccessString := fun _ _ var s => ("", var, s)
  insertCommand := fun _ stmt s =>
    (s.index + 1, { s with emitted := s.emitted ++ [(s.index + 1, stmt)], index := s.index + 1 })
  getPointerOperandType := fun _ => 0
  getSrcTy := fun _ => 0
  getDestTy := fun _ => 1
  isStructTy := fun _ => false
  getInternalType := fun t _ => t
  getSizeToType := fun _ => 1
  TryConvertToInteger := fun _ => none
  uninit := 0

/-- A fresh, valid session. -/
def freshState : State := ⟨true, [], [], 0⟩

/-- A session that has been invalidated. -/
def deadState : State := ⟨false, [], [], 0⟩

/-- The array `A` indexed by the parameters `i` and `j`: value 3 is
`gep A, i, j`, value 4 loads from `A`, value 5 extends that load, value 6 is
`gep A, 0, 0`, value 7 is a constant nobody can fold, value 8 a comparison,
value 11 loads from the parameter `i` and value 12 extends that load. -/
def arrayEnv : Env := { baseEnv with
  node := fun v =>
    match v with
    | 0 => .alloca 9
    | 1 => .argument
    | 2 => .argument
    | 3 => .gep 0 [1, 2]
    | 4 => .load 0
    | 5 => .zext 4
    | 6 => .gep 0 [10, 10]
    | 7 => .const
    | 8 => .icmp 1 2
    | 9 => .constInt 1
    | 10 => .constInt 0
    | 11 => .load 1
    | 12 => .zext 11
    | _ => .other
  nameInFile := fun v =>
    match v with
    | 0 => "A"
    | 1 => "i"
    | 2 => "j"
    | 4 => "x"
    | _ => ""
  getUniqueConstantInteger := fun v =>
    match v with
    | 9 => some 1
    | 10 => some 0
    | _ => none }

/-- A reinterpretation (value 0) of value 1 from a 4-byte to a 1-byte type;
value 1 recovers to the text `p`. -/
def narrowEnv : Env := { baseEnv with
  node := fun v =>
    match v with
    | 0 => .bitcast 1
    | _ => .argument
  getSizeToType := fun t => if t = 0 then 4 else 1
  getAccessString := fun _ _ _ s => ("p", -1, s) }

/-- A reinterpretation (value 0) of value 1 from a 1-byte to a 4-byte type;
value 1 recovers to the literal `10`. -/
def widenEnv : Env := { baseEnv with
  node := fun v =>
    match v with
    | 0 => .bitcast 1
    | _ => .constInt 10
  getSizeToType := fun t => if t = 0 then 1 else 4
  getAccessString := fun _ _ _ s => ("10", -1, s)
  TryConvertToInteger := fun t => if t = "10" then some 10 else none }

/-- Structs behind a pointer: value 0 is the allocation `S`, value 3 is
`gep S, i, 1` whose second type level is a struct, value 4 is a global with
no declared name that no evaluator folds, value 5 is a call with no declared
name that allocates nothing, and value 6 is `gep S, 5, 1`, indexed by that
call. Type handle 1, the level below the pointer operand's type, is the
struct type. -/
def structEnv : Env := { baseEnv with
  node := fun v =>
    match v with
    | 0 => .alloca 2
    | 1 => .argument
    | 2 => .constInt 1
    | 3 => .gep 0 [1, 2]
    | 4 => .global
    | 5 => .call []
    | 6 => .gep 0 [5, 2]
    | _ => .other
  nameInFile := fun v =>
    match v with
    | 0 => "S"
    | 1 => "i"
    | _ => ""
  getUniqueConstantInteger := fun v =>
    match v with
    | 2 => some 1
    | _ => none
  isStructTy := fun t => t == 1
  getInternalType := fun t _ => t + 1 }

/-- Cycles through phi nodes: values 0 and 1 form a cycle with no address
computation in reach; values 5 and 6 form a cycle from which the address
computation 2 is reached through the phi. -/
def cycleEnv : Env := { baseEnv with
  node := fun v =>
    match v with
    | 0 => .phi [1, 3]
    | 1 => .inst [0, 4]
    | 2 => .gep 3 [4]
    | 3 => .argument
    | 4 => .constInt 1
    | 5 => .phi [6, 2]
    | 6 => .inst [5, 4]
    | _ => .other }

/-- A struct descriptor with the single member `a`, whose declared base type is
a struct with the members `b`, `c` and `d`. -/
def derivedStruct : MD :=
  .composite (some [.basic "a"])
    (.composite (some [.basic "b", .basic "c", .basic "d"]) .null)

/-- An address computation on an address computation: value 13 is
`gep (gep A, i, j), i, j`, value 14 loads from it, value 15 stores the
parameter `i` through that load, value 19 stores `i` through `A`, and values
17 and 18 cast value 16, an arithmetic instruction. -/
def nestedEnv : Env := { arrayEnv with
  node := fun v =>
    match v with
    | 13 => .gep 3 [1, 2]
    | 14 => .load 13
    | 15 => .store 1 14
    | 16 => .inst [1, 2]
    | 17 => .ptrtoint 16
    | 18 => .inttoptr 16
    | 19 => .store 1 0
    | _ => arrayEnv.node v }

/-- A valid session in which value 16 is memoized with slot 3 and the text `t`. -/
def slotState : State := ⟨true, [(16, 3, "t")], [], 0⟩

/-- A floating-point comparison: value 21 is `fcmp i, j`. -/
def fcmpEnv : Env := { arrayEnv with
  node := fun v =>
    match v with
    | 21 => .fcmp 1 2
    | _ => arrayEnv.node v }

/-- Reinterpretations of folded literals: value 0 reinterprets value 1, which
recovers to the literal 2^53 + 1, between types of size 1; value 2
reinterprets value 3, which recovers to the literal -5, from a 4-byte to a
1-byte type. -/
def bigEnv : Env := { baseEnv with
  node := fun v =>
    match v with
    | 0 => .bitcast 1
    | 1 => .constInt 9007199254740993
    | 2 => .bitcast 3
    | 3 => .constInt (-5)
    | _ => .other
  getSrcTy := fun v => if v = 2 then 5 else 0
  getSizeToType := fun t => if t = 5 then 4 else 1
  getAccessString := fun op _ _ s =>
    if op = 3 then ("-5", -1, s) else ("9007199254740993", -1, s)
  TryConvertToInteger := fun t =>
    if t = "9007199254740993" then some 9007199254740993
    else if t = "-5" then some (-5)
    else none }

/-! ## Sticky invalidation -/

/-- C1: in a session whose validity flag is false, `getAccessStringMD` returns
the empty expression for every value and context name, leaves the session
(and so the flag) as it was, and needs a single unit of fuel: it does not
recurse. -/
theorem getAccessStringMD_invalid (E : Env) (fuel V : Nat) (ctx : String) (var : Int)
    (s : State) (h : s.valid = false) :
    getAccessStringMD E (fuel + 1) V ctx var s = some ("", var, s) := by
  simp [getAccessStringMD, isValid, h]

/-- C1 at a concrete session: the named allocation `A` in an invalidated session. -/
theorem getAccessStringMD_invalid_witness :
    deadState.valid = false ∧
      getAccessStringMD arrayEnv (0 + 1) 0 "x" 7 deadState = some ("", 7, deadState) :=
  ⟨rfl, getAccessStringMD_invalid arrayEnv 0 0 "x" 7 deadState rfl⟩

/-! ## Zero-index pass-through -/

/-- C4: an address computation with no index, or with zero constants as its
only indices, recovers to exactly what the dispatcher returns for its pointer
operand: text, slot and session. -/
theorem recoverGEPMD_zero_indices (E : Env) (fuel V ptr : Nat) (idx : List Nat)
    (ctx : String) (var : Int) (s : State)
    (hn : E.node V = .gep ptr idx)
    (hz : ∀ i ∈ idx, (E.node i).isZeroConstInt = true) :
    recoverGEPMD E fuel (getAccessStringMD E fuel) V ctx var s
      = getAccessStringMD E fuel ptr ctx var s := by
  have hall : idx.all (fun i => (E.node i).isZeroConstInt) = true :=
    List.all_eq_true.mpr hz
  simp [recoverGEPMD, hn, hall]

/-- C4 at `gep A, 0, 0`. -/
theorem recoverGEPMD_zero_indices_witness :
    arrayEnv.node 6 = .gep 0 [10, 10] ∧
      (∀ i ∈ [10, 10], (arrayEnv.node i).isZeroConstInt = true) ∧
      recoverGEPMD arrayEnv 2 (getAccessStringMD arrayEnv 2) 6 "x" 7 freshState
        = getAccessStringMD arrayEnv 2 0 "x" 7 freshState :=
  ⟨rfl, by decide,
    recoverGEPMD_zero_indices arrayEnv 2 6 0 [10, 10] "x" 7 freshState rfl (by decide)⟩

/-! ## Type reinterpretation -/

/-- C5: from a 4-byte to a 1-byte type the factor is the quotient of the
unsigned sizes, 0, which is not 0.25; the text produced is `0.000000 * p`. -/
theorem bitcastFactor_four_to_one :
    narrowEnv.getSizeToType (narrowEnv.getSrcTy 0) = 4 ∧
      narrowEnv.getSizeToType (narrowEnv.getDestTy 0) = 1 ∧
      bitcastFactor narrowEnv 0 = some 0 ∧
      (bitcastFactor narrowEnv 0).map (fun f => (f : ℚ)) ≠ some (1 / 4) ∧
      (recoverBitcastOf narrowEnv 0 "x" (-1) freshState).map (fun r => r.1)
        = some "0.000000 * p;\n" := by
  refine ⟨rfl, rfl, rfl, ?_, by decide⟩
  have h : bitcastFactor narrowEnv 0 = some 0 := rfl
  rw [h]
  norm_num

/-- C6, as stated, fails: the 1-byte to 4-byte reinterpretation of the literal
`10` does not return the text `40`. -/
theorem recoverBitcastOf_fold_not_40 :
    widenEnv.node 0 = .bitcast 1 ∧ widenEnv.getOriginalName 0 = "" ∧
      widenEnv.getSizeToType (widenEnv.getSrcTy 0) = 1 ∧
      widenEnv.getSizeToType (widenEnv.getDestTy 0) = 4 ∧
      widenEnv.getAccessString 1 "x" (-1) freshState = ("10", -1, freshState) ∧
      widenEnv.TryConvertToInteger "10" = some 10 ∧
      (recoverBitcastOf widenEnv 0 "x" (-1) freshState).map (fun r => r.1) ≠ some "40" := by
  decide

/-- C6, amended: with no original name, a 1-byte source and a 4-byte
destination type, and an operand that recovers with slot -1 to the literal
`10`, `recoverBitcastOf` returns the text `40.000000` and the session is the
one the operand recovery left: nothing is memoized or emitted. -/
theorem recoverBitcastOf_fold (E : Env) (V op : Nat) (name : String) (var : Int)
    (s s1 : State)
    (hn : E.node V = .bitcast op) (ho : E.getOriginalName V = "")
    (h1 : E.getSizeToType (E.getSrcTy V) = 1) (h2 : E.getSizeToType (E.getDestTy V) = 4)
    (hop : E.getAccessString op name var s = ("10", -1, s1))
    (hint : E.TryConvertToInteger "10" = some 10) :
    recoverBitcastOf E V name var s = some ("40.000000", -1, s1) := by
  have hf : bitcastFactor E V = some 4 := by
    simp [bitcastFactor, h1, h2]
  have ht : foldedText 10 4 = "40.000000" := by decide
  simp [recoverBitcastOf, hn, ho, hf, hop, hint, ht]

/-- C6, amended, at a concrete session. -/
theorem recoverBitcastOf_fold_witness :
    widenEnv.node 0 = .bitcast 1 ∧ widenEnv.getOriginalName 0 = "" ∧
      widenEnv.getSizeToType (widenEnv.getSrcTy 0) = 1 ∧
      widenEnv.getSizeToType (widenEnv.getDestTy 0) = 4 ∧
      widenEnv.getAccessString 1 "x" (-1) freshState = ("10", -1, freshState) ∧
      widenEnv.TryConvertToInteger "10" = some 10 ∧
      recoverBitcastOf widenEnv 0 "x" (-1) freshState
        = some ("40.000000", -1, freshState) :=
  ⟨rfl, rfl, rfl, rfl, rfl, rfl,
    recoverBitcastOf_fold widenEnv 0 1 "x" (-1) freshState freshState rfl rfl rfl rfl rfl rfl⟩

/-! ## Self-reference guard -/

/-- C7, as stated, fails for a load: value 4 loads from `A`, its declared name
is the context name `x`, it is not memoized and has no original or phi name,
yet the dispatcher recurses into the pointer operand and returns `A`. -/
theorem getAccessStringMD_load_not_guarded :
    (arrayEnv.node 4).isLoad = true ∧ freshState.valid = true ∧
      selectComputedValue freshState 4 = none ∧ arrayEnv.getOriginalName 4 = "" ∧
      arrayEnv.getPHINode 4 "x" (-1) freshState = ("", -1, freshState) ∧
      arrayEnv.nameInFile 4 = "x" ∧
      (getAccessStringMD arrayEnv 2 4 "x" 7 freshState).map (fun r => r.1) = some "A" ∧
      (getAccessStringMD arrayEnv 2 4 "x" 7 freshState).map (fun r => r.1) ≠ some "0" := by
  decide

/-- C7, amended: in a valid session, for a value that is an allocation, a
global, a parameter, a call or a phi, is not memoized and has no original or
phi name, if its declared name equals the context name then the dispatcher
returns the text `0` with slot -1, memoizes it, and needs a single unit of
fuel: it does not recurse into the operands. -/
theorem getAccessStringMD_self_reference (E : Env) (fuel V : Nat) (ctx : String)
    (var var1 : Int) (s s1 : State)
    (hv : s.valid = true) (hmemo : selectComputedValue s V = none)
    (horig : E.getOriginalName V = "")
    (hphi : E.getPHINode V ctx (-1) s = ("", var1, s1))
    (hkind : (E.node V).isAlloca = true ∨ (E.node V).isGlobal = true ∨
      (E.node V).isArgument = true ∨ (E.node V).isCall = true ∨ (E.node V).isPHI = true)
    (hname : E.nameInFile V = ctx) :
    getAccessStringMD E (fuel + 1) V ctx var s
      = some ("0", -1, insertComputedValue s1 V (-1) "0") := by
  have hrec : recoverNameOf E fuel (getAccessStringMD E fuel) V ctx var1 s1
      = some ("0", -1, s1) := by
    unfold recoverNameOf
    rcases hkind with h | h | h | h | h <;> simp [h, hname]
  simp [getAccessStringMD, isValid, hv, hmemo, horig, hphi, hrec, memoize]

/-- C7, amended, at the parameter `i` expanded under its own name. -/
theorem getAccessStringMD_self_reference_witness :
    freshState.valid = true ∧ selectComputedValue freshState 1 = none ∧
      arrayEnv.getOriginalName 1 = "" ∧
      arrayEnv.getPHINode 1 "i" (-1) freshState = ("", -1, freshState) ∧
      (arrayEnv.node 1).isArgument = true ∧ arrayEnv.nameInFile 1 = "i" ∧
      getAccessStringMD arrayEnv (0 + 1) 1 "i" 7 freshState
        = some ("0", -1, insertComputedValue freshState 1 (-1) "0") :=
  ⟨rfl, rfl, rfl, rfl, rfl, rfl,
    getAccessStringMD_self_reference arrayEnv 0 1 "i" 7 (-1) freshState freshState
      rfl rfl rfl rfl (Or.inr (Or.inr (Or.inl rfl))) rfl⟩

/-! ## Graph predicates: the load search -/

/-- C9: value 12 extends value 11, a load from the parameter `i`, which is no
instruction; a load is reachable from value 12 along operand edges, yet
`hasLOADasOperand` answers false, because its operand loop searches for
address computations. -/
theorem hasLOADasOperand_misses_load :
    (arrayEnv.node 12).isInstruction = true ∧ (arrayEnv.node 12).isLoad = false ∧
      Reach arrayEnv 12 11 ∧ (arrayEnv.node 11).isLoad = true ∧
      (arrayEnv.node 1).isInstruction = false ∧
      hasLOADasOperand arrayEnv 3 12 = some false := by
  refine ⟨rfl, rfl, ?_, rfl, rfl, by decide⟩
  exact Reach.step ⟨rfl, by decide⟩ (Reach.refl 11)

/-! ## Nested indexing -/

theorem gepLoop_run {E : Env} {rec : Nat → String → Int → State → Option Res}
    {name : String} {xs : List Nat} {ty ty1 : Ty} {dity dity1 : MD} {s s1 : State}
    {es : List String}
    (h : IndexRun E rec name xs ty dity s es ty1 dity1 s1) (rest : List Nat)
    (result : String) :
    gepLoop E rec name (xs ++ rest) ty dity result s
      = gepLoop E rec name rest ty1 dity1 (result ++ brackets es) s1 := by
  induction h generalizing result with
  | nil ty dity s => simp [brackets]
  | @cons x xs ty ty1 dity dity1 dity2 s s1 s2 e op es hs hr hd _ ih =>
    simp only [List.cons_append, gepLoop, hs, hr, hd, Bool.false_eq_true, if_false]
    have ih1 := ih ((result ++ "[") ++ ((if op ≠ -1 then slotText E op else e) ++ "]"))
    simp only [List.append_eq] at ih1 ⊢
    rw [ih1]
    simp [brackets, String.append_assoc, slotText]

theorem recoverGEPMD_loop {E : Env} {fuel : Nat}
    {rec : Nat → String → Int → State → Option Res} {V ptr b F : Nat} {idx xs : List Nat}
    {name : String} {var opPtr : Int} {s s1 : State} {dity dity1 : MD} {r0 : String}
    {ty : Ty}
    (hn : E.node V = .gep ptr idx)
    (hnz : idx.all (fun i => (E.node i).isZeroConstInt) = false)
    (hw : walkBasePtr E (decide (E.getOriginalName V ≠ "")) fuel ptr = some b)
    (hF : E.findEnclosingFunc b = some F)
    (hvar : E.findVar b F = some dity) (hd : dity.isDIType = true)
    (hbase : rec ptr name (-1) s = some (r0, opPtr, s1))
    (hstart : gepStart E V ptr idx dity = some (xs, ty, dity1)) :
    recoverGEPMD E fuel rec V name var s
      = (gepLoop E rec name xs ty dity1 (if opPtr ≠ -1 then slotText E opPtr else r0) s1).map
          (fun r => (r.1, var, r.2)) := by
  unfold recoverGEPMD
  cases dity <;> simp_all [MD.isDIType]

/-- C3, as stated, fails when every index is a zero constant: for
`gep A, 0, 0` the base recovers to `A` with no slot, the routine and the
variable are found, no level is a struct and both indices recover to `0`,
yet the result is `A`, not `A[0][0]`. -/
theorem recoverGEPMD_zero_not_nested :
    arrayEnv.node 6 = .gep 0 [10, 10] ∧ (arrayEnv.node 0).isGEP = false ∧
      walkBasePtr arrayEnv false 2 0 = some 0 ∧ arrayEnv.findEnclosingFunc 0 = some 0 ∧
      arrayEnv.findVar 0 0 = some (.derived (.basic "int")) ∧
      getAccessStringMD arrayEnv 2 0 "x" (-1) freshState
        = some ("A", -1, ⟨true, [(0, -1, "A")], [], 0⟩) ∧
      IndexRun arrayEnv (getAccessStringMD arrayEnv 2) "x" [10, 10] 0
        (.derived (.basic "int")) ⟨true, [(0, -1, "A")], [], 0⟩ ["0", "0"] 0 (.basic "int")
        ⟨true, [(10, -1, "0"), (0, -1, "A")], [], 0⟩ ∧
      recoverGEPMD arrayEnv 2 (getAccessStringMD arrayEnv 2) 6 "x" 7 freshState
        = some ("A", -1, ⟨true, [(0, -1, "A")], [], 0⟩) ∧
      "A" ≠ "A" ++ brackets ["0", "0"] := by
  refine ⟨rfl, rfl, rfl, rfl, rfl, by decide, ?_, by decide, by decide⟩
  have h2 : IndexRun arrayEnv (getAccessStringMD arrayEnv 2) "x" [10] 0 (.basic "int")
      ⟨true, [(10, -1, "0"), (0, -1, "A")], [], 0⟩ ["0"] 0 (.basic "int")
      ⟨true, [(10, -1, "0"), (0, -1, "A")], [], 0⟩ :=
    IndexRun.cons (e := "0") (by decide)
      (by decide : _ = some (_, (-1 : Int), _)) (by rfl) (IndexRun.nil _ _ _)
  exact IndexRun.cons (e := "0") (by decide)
    (by decide : _ = some (_, (-1 : Int), _)) (by rfl) h2

/-- C3, amended: for an address computation with at least one index that is
not a zero constant, whose pointer operand is not itself an address
computation, whose enclosing routine and declared debug variable are found,
whose type levels are never struct, and whose pointer operand and index
operands recover one after another, the result is the base text followed by
the subscripts `[e1]...[en]` in operand order, where a text that came back
with a slot is replaced by the text `NAME[slot]`; the caller's slot is
untouched. -/
theorem recoverGEPMD_nested (E : Env) (fuel V ptr b F : Nat) (idx : List Nat)
    (ctx : String) (var opPtr : Int) (s s1 s2 : State) (dity dity1 : MD) (r0 : String)
    (ty1 : Ty) (es : List String)
    (hn : E.node V = .gep ptr idx)
    (hnz : idx.all (fun i => (E.node i).isZeroConstInt) = false)
    (hptr : (E.node ptr).isGEP = false)
    (hw : walkBasePtr E (decide (E.getOriginalName V ≠ "")) fuel ptr = some b)
    (hF : E.findEnclosingFunc b = some F)
    (hvar : E.findVar b F = some dity) (hd : dity.isDIType = true)
    (hbase : getAccessStringMD E fuel ptr ctx (-1) s = some (r0, opPtr, s1))
    (hrun : IndexRun E (getAccessStringMD E fuel) ctx idx (E.getPointerOperandType V) dity
      s1 es ty1 dity1 s2) :
    recoverGEPMD E fuel (getAccessStringMD E fuel) V ctx var s
      = some ((if opPtr ≠ -1 then ((E.NAME ++ "[") ++ toString opPtr) ++ "]" else r0)
          ++ brackets es, var, s2) := by
  have hstart : gepStart E V ptr idx dity = some (idx, E.getPointerOperandType V, dity) := by
    simp [gepStart, hptr]
  rw [recoverGEPMD_loop hn hnz hw hF hvar hd hbase hstart]
  have h := gepLoop_run hrun [] (if opPtr ≠ -1 then slotText E opPtr else r0)
  rw [List.append_nil] at h
  rw [h]
  simp [gepLoop, slotText]

/-- C3, amended, at `gep A, i, j`: from a fresh session it recovers to
`A[i][j]`; from a session in which `A` is memoized with slot 5 and `i` with
slot 3 it recovers to `NAME[5][NAME[3]][j]`. -/
theorem recoverGEPMD_nested_witness :
    arrayEnv.node 3 = .gep 0 [1, 2] ∧
      [1, 2].all (fun i => (arrayEnv.node i).isZeroConstInt) = false ∧
      (arrayEnv.node 0).isGEP = false ∧
      recoverGEPMD arrayEnv 2 (getAccessStringMD arrayEnv 2) 3 "x" 7 freshState
        = some ("A[i][j]", 7, ⟨true, [(2, -1, "j"), (1, -1, "i"), (0, -1, "A")], [], 0⟩) ∧
      getAccessStringMD arrayEnv 2 0 "x" (-1) ⟨true, [(0, 5, "b"), (1, 3, "t")], [], 0⟩
        = some ("b", 5, ⟨true, [(0, 5, "b"), (1, 3, "t")], [], 0⟩) ∧
      getAccessStringMD arrayEnv 2 1 "x" (-1) ⟨true, [(0, 5, "b"), (1, 3, "t")], [], 0⟩
        = some ("t", 3, ⟨true, [(0, 5, "b"), (1, 3, "t")], [], 0⟩) ∧
      recoverGEPMD arrayEnv 2 (getAccessStringMD arrayEnv 2) 3 "x" 7
          ⟨true, [(0, 5, "b"), (1, 3, "t")], [], 0⟩
        = some ("NAME[5][NAME[3]][j]", 7,
            ⟨true, [(2, -1, "j"), (0, 5, "b"), (1, 3, "t")], [], 0⟩) := by
  have h2 : IndexRun arrayEnv (getAccessStringMD arrayEnv 2) "x" [2] 0 (.basic "int")
      ⟨true, [(1, -1, "i"), (0, -1, "A")], [], 0⟩ ["j"] 0 (.basic "int")
      ⟨true, [(2, -1, "j"), (1, -1, "i"), (0, -1, "A")], [], 0⟩ :=
    IndexRun.cons (e := "j") (by decide)
      (by decide : _ = some (_, (-1 : Int), _)) (by rfl) (IndexRun.nil _ _ _)
  have h1 : IndexRun arrayEnv (getAccessStringMD arrayEnv 2) "x" [1, 2] 0
      (.derived (.basic "int")) ⟨true, [(0, -1, "A")], [], 0⟩ ["i", "j"] 0 (.basic "int")
      ⟨true, [(2, -1, "j"), (1, -1, "i"), (0, -1, "A")], [], 0⟩ :=
    IndexRun.cons (e := "i") (by decide)
      (by decide : _ = some (_, (-1 : Int), _)) (by rfl) h2
  have h := recoverGEPMD_nested arrayEnv 2 3 0 0 0 [1, 2] "x" 7 (-1) freshState
    ⟨true, [(0, -1, "A")], [], 0⟩ ⟨true, [(2, -1, "j"), (1, -1, "i"), (0, -1, "A")], [], 0⟩
    (.derived (.basic "int")) (.basic "int") "A" 0 ["i", "j"]
    rfl (by decide) rfl rfl rfl rfl rfl (by decide) h1
  have k2 : IndexRun arrayEnv (getAccessStringMD arrayEnv 2) "x" [2] 0 (.basic "int")
      ⟨true, [(0, 5, "b"), (1, 3, "t")], [], 0⟩ ["j"] 0 (.basic "int")
      ⟨true, [(2, -1, "j"), (0, 5, "b"), (1, 3, "t")], [], 0⟩ :=
    IndexRun.cons (e := "j") (by decide)
      (by decide : _ = some (_, (-1 : Int), _)) (by rfl) (IndexRun.nil _ _ _)
  have k1 : IndexRun arrayEnv (getAccessStringMD arrayEnv 2) "x" [1, 2] 0
      (.derived (.basic "int")) ⟨true, [(0, 5, "b"), (1, 3, "t")], [], 0⟩
      ["NAME[3]", "j"] 0 (.basic "int")
      ⟨true, [(2, -1, "j"), (0, 5, "b"), (1, 3, "t")], [], 0⟩ :=
    IndexRun.cons (e := "t") (by decide)
      (by decide : _ = some (_, (3 : Int), _)) (by rfl) k2
  have k := recoverGEPMD_nested arrayEnv 2 3 0 0 0 [1, 2] "x" 7 5
    ⟨true, [(0, 5, "b"), (1, 3, "t")], [], 0⟩ ⟨true, [(0, 5, "b"), (1, 3, "t")], [], 0⟩
    ⟨true, [(2, -1, "j"), (0, 5, "b"), (1, 3, "t")], [], 0⟩
    (.derived (.basic "int")) (.basic "int") "b" 0 ["NAME[3]", "j"]
    rfl (by decide) rfl rfl rfl rfl rfl (by decide) k1
  exact ⟨rfl, by decide, rfl, h, by decide, by decide, k⟩

/-! ## Struct levels -/

/-- C8, as stated, fails: `gep S, 5, 1` has non-zero indices, the type of
its pointer operand is no struct and the level below it is one, the routine
and the debug variable of `S` are found, so the loop reaches the second index
at a struct level; the session is valid before the call and the result is the
empty text, but the session is invalid afterwards, because recovering the
first index, a call with no declared name that allocates nothing, tripped the
flag. -/
theorem recoverGEPMD_struct_invalidates :
    structEnv.node 6 = .gep 0 [5, 2] ∧ (structEnv.node 0).isGEP = false ∧
      [5, 2].all (fun i => (structEnv.node i).isZeroConstInt) = false ∧
      structEnv.isStructTy (structEnv.getPointerOperandType 6) = false ∧
      structEnv.isStructTy
        (structEnv.getInternalType (structEnv.getPointerOperandType 6) 0) = true ∧
      walkBasePtr structEnv false 2 0 = some 0 ∧ structEnv.findEnclosingFunc 0 = some 0 ∧
      structEnv.findVar 0 0 = some (.derived (.basic "int")) ∧
      freshState.valid = true ∧
      getAccessStringMD structEnv 2 0 "x" (-1) freshState
        = some ("S", -1, ⟨true, [(0, -1, "S")], [], 0⟩) ∧
      getAccessStringMD structEnv 2 5 "x" (-1) ⟨true, [(0, -1, "S")], [], 0⟩
        = some ("", -1, ⟨false, [(0, -1, "S")], [], 0⟩) ∧
      recoverGEPMD structEnv 2 (getAccessStringMD structEnv 2) 6 "x" 7 freshState
        = some ("", 7, ⟨false, [(0, -1, "S")], [], 0⟩) := by
  refine ⟨rfl, rfl, by decide, rfl, rfl, rfl, rfl, rfl, rfl, ?_, ?_, ?_⟩ <;> decide

/-- C8, amended: for an address computation with at least one index that is
not a zero constant, whose routine and debug variable are found, if the loop
reaches the index `x` at a struct level after the indices `pre`, the result is
the empty text and the session is exactly the one left by recovering the
pointer operand and the indices `pre`: the struct-level return itself does
not touch the validity flag. -/
theorem recoverGEPMD_struct_level (E : Env) (fuel V ptr b F x : Nat)
    (idx pre rest : List Nat) (ctx : String) (var opPtr : Int) (s s1 s2 : State)
    (dity dity0 dity1 : MD) (r0 : String) (ty0 ty1 : Ty) (es : List String)
    (hn : E.node V = .gep ptr idx)
    (hnz : idx.all (fun i => (E.node i).isZeroConstInt) = false)
    (hw : walkBasePtr E (decide (E.getOriginalName V ≠ "")) fuel ptr = some b)
    (hF : E.findEnclosingFunc b = some F)
    (hvar : E.findVar b F = some dity) (hd : dity.isDIType = true)
    (hbase : getAccessStringMD E fuel ptr ctx (-1) s = some (r0, opPtr, s1))
    (hstart : gepStart E V ptr idx dity = some (pre ++ x :: rest, ty0, dity0))
    (hrun : IndexRun E (getAccessStringMD E fuel) ctx pre ty0 dity0 s1 es ty1 dity1 s2)
    (hstruct : E.isStructTy ty1 = true) :
    recoverGEPMD E fuel (getAccessStringMD E fuel) V ctx var s = some ("", var, s2) ∧
      (s2.valid = true →
        ∀ r, recoverGEPMD E fuel (getAccessStringMD E fuel) V ctx var s = some r →
          r.2.2.valid = true) := by
  have hres : recoverGEPMD E fuel (getAccessStringMD E fuel) V ctx var s
      = some ("", var, s2) := by
    rw [recoverGEPMD_loop hn hnz hw hF hvar hd hbase hstart,
      gepLoop_run hrun (x :: rest) (if opPtr ≠ -1 then slotText E opPtr else r0)]
    simp [gepLoop, hstruct]
  refine ⟨hres, ?_⟩
  intro hv r hr
  rw [hres] at hr
  cases hr
  exact hv

/-- C8, amended, at `gep S, i, 1`: the struct level is reached at the second
index and the session stays valid. -/
theorem recoverGEPMD_struct_level_witness :
    structEnv.node 3 = .gep 0 [1, 2] ∧
      [1, 2].all (fun i => (structEnv.node i).isZeroConstInt) = false ∧
      structEnv.isStructTy 1 = true ∧
      recoverGEPMD structEnv 2 (getAccessStringMD structEnv 2) 3 "x" 7 freshState
        = some ("", 7, ⟨true, [(1, -1, "i"), (0, -1, "S")], [], 0⟩) := by
  have h1 : IndexRun structEnv (getAccessStringMD structEnv 2) "x" [1] 0
      (.derived (.basic "int")) ⟨true, [(0, -1, "S")], [], 0⟩ ["i"] 1 (.basic "int")
      ⟨true, [(1, -1, "i"), (0, -1, "S")], [], 0⟩ :=
    IndexRun.cons (e := "i") (by decide)
      (by decide : _ = some (_, (-1 : Int), _)) (by rfl) (IndexRun.nil _ _ _)
  have h := recoverGEPMD_struct_level structEnv 2 3 0 0 0 2 [1, 2] [1] [] "x" 7 (-1)
    freshState ⟨true, [(0, -1, "S")], [], 0⟩ ⟨true, [(1, -1, "i"), (0, -1, "S")], [], 0⟩
    (.derived (.basic "int")) (.derived (.basic "int")) (.basic "int") "S" 0 1 ["i"]
    rfl (by decide) rfl rfl rfl rfl (by decide) rfl h1 rfl
  exact ⟨rfl, by decide, rfl, h.1⟩

/-! ## Graph predicates: the address-computation search -/

theorem Settled.mono {E : Env} {KV KV1 : List Nat} {u : Nat} (h : Settled E KV u)
    (hsub : ∀ x ∈ KV, x ∈ KV1) : Settled E KV1 u :=
  ⟨h.1, h.2.1, fun o ho hi => hsub o (h.2.2 o ho hi)⟩

theorem unvisited_card_mono (E : Env) (N : Nat) {KV KV1 : List Nat}
    (hsub : ∀ x ∈ KV, x ∈ KV1) : (unvisited E N KV1).card ≤ (unvisited E N KV).card := by
  apply Finset.card_le_card
  intro u hu
  simp only [unvisited, Finset.mem_filter] at hu ⊢
  exact ⟨hu.1, hu.2.1, fun h => hu.2.2 (hsub u h)⟩

theorem unvisited_card_insert (E : Env) (N : Nat) {KV : List Nat} {v : Nat}
    (hv : (E.node v).isInstruction = true) (hN : v < N) (hnot : v ∉ KV) :
    (unvisited E N (KV.insert v)).card < (unvisited E N KV).card := by
  apply Finset.card_lt_card
  rw [Finset.ssubset_iff_of_subset]
  · refine ⟨v, ?_, ?_⟩
    · simp [unvisited, hv, hN, hnot]
    · simp [unvisited]
  · intro u hu
    simp only [unvisited, Finset.mem_filter, List.mem_insert_iff, not_or] at hu ⊢
    exact ⟨hu.1, hu.2.1, hu.2.2.2⟩

theorem operandLoop_spec (E : Env) (N fuel : Nat)
    (rec : Nat → List Nat → Option (Bool × List Nat))
    (hrec : ∀ o KV, (unvisited E N KV).card < fuel → o ∉ KV →
      ∃ r, rec o KV = some r ∧ SearchSpec E o KV r) :
    ∀ (os KV : List Nat), (unvisited E N KV).card < fuel →
      ∃ r, operandLoop rec os KV = some r ∧ (∀ u ∈ KV, u ∈ r.2) ∧
        (r.1 = true → ∃ o ∈ os, (E.node o).isInstruction = true ∧
          ∃ w, Reach E o w ∧ (E.node w).isGEP = true) ∧
        (r.1 = false → (∀ o ∈ os, (E.node o).isInstruction = true → o ∈ r.2) ∧
          ∀ u ∈ r.2, u ∉ KV → Settled E r.2 u) := by
  intro os
  induction os with
  | nil =>
    intro KV _
    exact ⟨(false, KV), rfl, fun u hu => hu, by simp,
      fun _ => ⟨by simp, fun u hu hnot => absurd hu hnot⟩⟩
  | cons o os ih =>
    intro KV hlt
    by_cases hmem : o ∈ KV
    · obtain ⟨r, hr, hsub, ht, hf⟩ := ih KV hlt
      refine ⟨r, by simp [operandLoop, hmem, hr], hsub, ?_, ?_⟩
      · intro hb
        obtain ⟨o1, ho1, h1⟩ := ht hb
        exact ⟨o1, List.mem_cons_of_mem _ ho1, h1⟩
      · intro hb
        obtain ⟨h1, h2⟩ := hf hb
        refine ⟨?_, h2⟩
        intro o1 ho1 hi
        rcases List.mem_cons.mp ho1 with h | h
        · subst h
          exact hsub _ hmem
        · exact h1 o1 h hi
    · obtain ⟨⟨b, KV1⟩, hr, hsub, hin, ht, hf⟩ := hrec o KV hlt hmem
      cases b with
      | true =>
        refine ⟨(true, KV1), by simp [operandLoop, hmem, hr], hsub, ?_, by simp⟩
        intro _
        obtain ⟨hi, w, hw⟩ := ht rfl
        exact ⟨o, List.mem_cons_self _ _, hi, w, hw⟩
      | false =>
        have hlt1 : (unvisited E N KV1).card < fuel :=
          lt_of_le_of_lt (unvisited_card_mono E N hsub) hlt
        obtain ⟨r, hr2, hsub2, ht2, hf2⟩ := ih KV1 hlt1
        refine ⟨r, by simp [operandLoop, hmem, hr, hr2], fun u hu => hsub2 u (hsub u hu),
          ?_, ?_⟩
        · intro hb
          obtain ⟨o1, ho1, h1⟩ := ht2 hb
          exact ⟨o1, List.mem_cons_of_mem _ ho1, h1⟩
        · intro hb
          obtain ⟨h1, h2⟩ := hf2 hb
          refine ⟨?_, ?_⟩
          · intro o1 ho1 hi
            rcases List.mem_cons.mp ho1 with h | h
            · subst h
              exact hsub2 _ (hin hi)
            · exact h1 o1 h hi
          · intro u hu hnot
            by_cases hu1 : u ∈ KV1
            · exact (hf rfl u hu1 hnot).mono hsub2
            · exact h2 u hu hu1

theorem hasGEPasOperandKV_spec (E : Env) (N : Nat)
    (hfin : ∀ v, (E.node v).isInstruction = true → v < N) :
    ∀ (fuel V : Nat) (KV : List Nat), (unvisited E N KV).card < fuel → V ∉ KV →
      ∃ r, hasGEPasOperandKV E fuel V KV = some r ∧ SearchSpec E V KV r := by
  intro fuel
  induction fuel with
  | zero => intro V KV h; exact absurd h (Nat.not_lt_zero _)
  | succ fuel ih =>
    intro V KV hlt hnot
    by_cases hi : (E.node V).isInstruction = true
    · by_cases hg : (E.node V).isGEP = true
      · refine ⟨(true, KV.insert V), by simp [hasGEPasOperandKV, hi, hg], ?_, ?_, ?_, by simp⟩
        · intro u hu
          exact List.mem_insert_iff.mpr (Or.inr hu)
        · intro _
          exact List.mem_insert_iff.mpr (Or.inl rfl)
        · intro _
          exact ⟨hi, V, Reach.refl V, hg⟩
      · have hlt1 : (unvisited E N (KV.insert V)).card < fuel :=
          lt_of_lt_of_le (unvisited_card_insert E N hi (hfin V hi) hnot)
            (Nat.lt_succ_iff.mp hlt)
        obtain ⟨r, hr, hsub, ht, hf⟩ :=
          operandLoop_spec E N fuel (hasGEPasOperandKV E fuel) ih (E.node V).operands
            (KV.insert V) hlt1
        have hVin : V ∈ r.2 := hsub V (List.mem_insert_iff.mpr (Or.inl rfl))
        refine ⟨r, by simp [hasGEPasOperandKV, hi, hg, hr], ?_, fun _ => hVin, ?_, ?_⟩
        · intro u hu
          exact hsub u (List.mem_insert_iff.mpr (Or.inr hu))
        · intro hb
          obtain ⟨o, ho, _, w, hw, hgw⟩ := ht hb
          exact ⟨hi, w, Reach.step ⟨hi, ho⟩ hw, hgw⟩
        · intro hb u hu hnotu
          obtain ⟨h1, h2⟩ := hf hb
          by_cases huV : u = V
          · subst huV
            exact ⟨hi, by simpa using hg, h1⟩
          · apply h2 u hu
            intro hmem
            rcases List.mem_insert_iff.mp hmem with h | h
            · exact huV h
            · exact hnotu h
    · refine ⟨(false, KV), by simp [hasGEPasOperandKV, hi], fun u hu => hu, ?_, by simp, ?_⟩
      · intro h; exact absurd h hi
      · intro _ u hu hnotu; exact absurd hu hnotu

theorem Reach.source_isInstruction {E : Env} {u w : Nat} (h : Reach E u w)
    (hg : (E.node w).isGEP = true) : (E.node u).isInstruction = true := by
  cases h with
  | refl =>
    cases hn : E.node u <;> simp_all [Node.isGEP, Node.isInstruction]
  | step he _ => exact he.1

theorem Reach.settled_no_gep {E : Env} {KV : List Nat} (hall : ∀ u ∈ KV, Settled E KV u)
    {u w : Nat} (h : Reach E u w) (hu : u ∈ KV) : (E.node w).isGEP = false := by
  induction h with
  | refl v => exact (hall v hu).2.1
  | @step u o w he hr ih =>
    by_cases hg : (E.node w).isGEP = true
    · exact ih ((hall u hu).2.2 o he.2 (hr.source_isInstruction hg))
    · simpa using hg

/-- C10: on a graph whose instruction nodes all lie below `N`, cycles
included, `hasGEPasOperand` returns with any fuel above `N`, and it returns
true exactly when the value is an instruction from which an address
computation is reachable (itself included) along operand edges through
instruction nodes. -/
theorem hasGEPasOperand_correct (E : Env) (N fuel : Nat)
    (hfin : ∀ v, (E.node v).isInstruction = true → v < N) (hfuel : N < fuel) (V : Nat) :
    ∃ b, hasGEPasOperand E fuel V = some b ∧
      (b = true ↔ ((E.node V).isInstruction = true ∧
        ∃ w, Reach E V w ∧ (E.node w).isGEP = true)) := by
  have hcard : (unvisited E N []).card < fuel := by
    refine lt_of_le_of_lt ?_ hfuel
    calc (unvisited E N []).card ≤ (Finset.range N).card := Finset.card_filter_le _ _
      _ = N := Finset.card_range N
  obtain ⟨⟨b, KV⟩, hr, _, hin, ht, hf⟩ :=
    hasGEPasOperandKV_spec E N hfin fuel V [] hcard (List.not_mem_nil V)
  refine ⟨b, by simp [hasGEPasOperand, hr], ?_⟩
  constructor
  · intro hb
    exact ht hb
  · rintro ⟨hi, w, hw, hg⟩
    cases b with
    | true => rfl
    | false =>
      have hall : ∀ u ∈ KV, Settled E KV u := fun u hu => hf rfl u hu (List.not_mem_nil u)
      have := Reach.settled_no_gep hall hw (hin hi)
      simp [hg] at this

theorem cycleEnv_finite : ∀ v, (cycleEnv.node v).isInstruction = true → v < 7 := by
  intro v h
  rcases v with _ | _ | _ | _ | _ | _ | _ | v <;>
    first
      | omega
      | (simp [cycleEnv, baseEnv, Node.isInstruction] at h)

/-- C10 on the cycle of the phi 5 and the instruction 6, from which the
address computation 2 is reached. -/
theorem hasGEPasOperand_correct_witness :
    (∀ v, (cycleEnv.node v).isInstruction = true → v < 7) ∧ 7 < 8 ∧
      hasGEPasOperand cycleEnv 8 6 = some true ∧
      hasGEPasOperand cycleEnv 8 1 = some false ∧
      ∃ b, hasGEPasOperand cycleEnv 8 6 = some b ∧
        (b = true ↔ ((cycleEnv.node 6).isInstruction = true ∧
          ∃ w, Reach cycleEnv 6 w ∧ (cycleEnv.node w).isGEP = true)) :=
  ⟨cycleEnv_finite, by decide, by decide, by decide,
    hasGEPasOperand_correct cycleEnv 7 8 cycleEnv_finite (by decide) 6⟩

/-! ## Memoization -/

theorem CacheLe.refl (s : State) : CacheLe s s := fun _ _ h => h

/-- C11: on a struct descriptor with one element whose base type has three,
index 0 returns the element and index 2 descends into the base type, but at
index 1, the element count, `getDITypeElement` reads element position 1 of a
one-element list (no result is defined) where the base type would give `c`:
the bound test `getNumOperands() < elem` is strict. -/
theorem getDITypeElement_reads_past_end :
    getDITypeElement derivedStruct 0 = some (.basic "a") ∧
      getDITypeElement derivedStruct 2 = some (.basic "d") ∧
      getDITypeElement (.composite (some [.basic "b", .basic "c", .basic "d"]) .null) 1
        = some (.basic "c") ∧
      [MD.basic "a"].get? 1 = none ∧
      getDITypeElement derivedStruct 1 = none := by
  refine ⟨rfl, rfl, rfl, rfl, rfl⟩

/-- C12: for every index, `getDITypeElement` on a basic descriptor returns
that descriptor, and on a derived descriptor that wraps a type descriptor it
returns the wrapped descriptor. -/
theorem getDITypeElement_basic_derived (k : Int) (n : String) (b : MD)
    (hb : b.isDIType = true) :
    getDITypeElement (.basic n) k = some (.basic n) ∧
      getDITypeElement (.derived b) k = some b := by
  refine ⟨by simp [getDITypeElement], ?_⟩
  cases b <;> simp_all [getDITypeElement, MD.isDIType]

/-- C12 at the index 5, on `char` and on a pointer to `int`. -/
theorem getDITypeElement_basic_derived_witness :
    (MD.basic "int").isDIType = true ∧
      getDITypeElement (.basic "char") 5 = some (.basic "char") ∧
      getDITypeElement (.derived (.basic "int")) 5 = some (.basic "int") :=
  ⟨rfl, getDITypeElement_basic_derived 5 "char" (.basic "int") rfl⟩

/-! ## Pointer and integer casts -/

/-- C13, as stated, fails: value 16 recovers to the text `t` with slot 3, and
the statement both cast builders hand to the emitter is
`t(long long int) NAME[3];`, not the bare cast text. -/
theorem castExpMD_statement_has_text :
    getAccessStringMD nestedEnv 1 16 "x" nestedEnv.uninit slotState = some ("t", 3, slotState) ∧
      getPtrToIntExpMD nestedEnv (getAccessStringMD nestedEnv 1) 16 "x" 7 slotState
        = some ("", 1, ⟨true, [(16, 3, "t")], [(1, "t(long long int) NAME[3];\n")], 1⟩) ∧
      getIntToPtrExpMD nestedEnv (getAccessStringMD nestedEnv 1) 16 "x" 7 slotState
        = some ("", 1, ⟨true, [(16, 3, "t")], [(1, "t(long long int) NAME[3];\n")], 1⟩) ∧
      nestedEnv.insertCommand 7 "t(long long int) NAME[3];\n" slotState
        = (1, ⟨true, [(16, 3, "t")], [(1, "t(long long int) NAME[3];\n")], 1⟩) ∧
      "t(long long int) NAME[3];\n" ≠ "(long long int) NAME[3];\n" := by
  decide

/-- C13, amended: when the operand recovers to the text `e` with a slot other
than -1, both cast builders return the empty text and hand the emitter the
statement `e` followed by `(long long int) NAME[slot];` and a line end (the
bare cast text when `e` is empty); when the slot is -1 they return `e` with
the session the operand recovery left, and emit nothing. -/
theorem castExpMD_slot (E : Env) (fuel op : Nat) (ctx e : String) (var slot : Int)
    (s s1 : State)
    (hop : getAccessStringMD E fuel op ctx E.uninit s = some (e, slot, s1)) :
    (slot ≠ -1 →
        getPtrToIntExpMD E (getAccessStringMD E fuel) op ctx var s
          = some ("", (E.insertCommand var (e ++ castText E slot) s1).1,
              (E.insertCommand var (e ++ castText E slot) s1).2) ∧
        getIntToPtrExpMD E (getAccessStringMD E fuel) op ctx var s
          = some ("", (E.insertCommand var (e ++ castText E slot) s1).1,
              (E.insertCommand var (e ++ castText E slot) s1).2)) ∧
      (slot = -1 →
        getPtrToIntExpMD E (getAccessStringMD E fuel) op ctx var s = some (e, var, s1) ∧
        getIntToPtrExpMD E (getAccessStringMD E fuel) op ctx var s = some (e, var, s1)) := by
  constructor
  · intro h
    simp [getPtrToIntExpMD, getIntToPtrExpMD, castExpMD, hop, h, castText, String.append_assoc]
  · intro h
    simp [getPtrToIntExpMD, getIntToPtrExpMD, castExpMD, hop, h]

/-- C13, amended, at the cast of value 16, memoized with slot 3 and text `t`. -/
theorem castExpMD_slot_witness :
    getAccessStringMD nestedEnv 1 16 "x" nestedEnv.uninit slotState = some ("t", 3, slotState) ∧
      getPtrToIntExpMD nestedEnv (getAccessStringMD nestedEnv 1) 16 "x" 7 slotState
        = some ("", (nestedEnv.insertCommand 7 ("t" ++ castText nestedEnv 3) slotState).1,
            (nestedEnv.insertCommand 7 ("t" ++ castText nestedEnv 3) slotState).2) :=
  ⟨by decide, ((castExpMD_slot nestedEnv 1 16 "x" "t" 7 3 slotState slotState
    (by decide)).1 (by decide)).1⟩

/-! ## Store recovery -/

/-- C18: for a store, `recoverStoreMD` is the dispatcher's call on the pointer
operand, started with slot -1: text, slot and session are the ones of that
call, and the value operand does not occur in it. -/
theorem recoverStoreMD_address_only (E : Env) (fuel V val ptr : Nat) (ctx : String)
    (var : Int) (s : State) (hn : E.node V = .store val ptr) :
    recoverStoreMD E (getAccessStringMD E fuel) V ctx var s
      = getAccessStringMD E fuel ptr ctx (-1) s := by
  unfold recoverStoreMD
  simp only [hn]
  cases h : getAccessStringMD E fuel ptr ctx (-1) s with
  | none => rfl
  | some r => rfl

/-- C18 at the store of `i` through `A`. -/
theorem recoverStoreMD_address_only_witness :
    nestedEnv.node 19 = .store 1 0 ∧
      recoverStoreMD nestedEnv (getAccessStringMD nestedEnv 2) 19 "x" 7 freshState
        = getAccessStringMD nestedEnv 2 0 "x" (-1) freshState ∧
      getAccessStringMD nestedEnv 2 0 "x" (-1) freshState
        = some ("A", -1, ⟨true, [(0, -1, "A")], [], 0⟩) :=
  ⟨rfl, recoverStoreMD_address_only nestedEnv 2 19 1 0 "x" 7 freshState rfl, by decide⟩

/-! ## Dispatcher cases -/

theorem insertComputedValue_valid (s : State) (V : Nat) (var : Int) (result : String) :
    (insertComputedValue s V var result).valid = s.valid := by
  unfold insertComputedValue
  split <;> rfl

theorem selectComputedValue_insert (s : State) (V : Nat) (var : Int) (result : String)
    (h : selectComputedValue s V = none) :
    selectComputedValue (insertComputedValue s V var result) V = some (var, result) := by
  unfold insertComputedValue
  rw [h]
  simp [selectComputedValue]

theorem recoverNameOf_named_kind (E : Env) (fuel : Nat)
    (rec : Nat → String → Int → State → Option Res) (V : Nat) (name : String) (var : Int)
    (s : State)
    (hkind : (E.node V).isAlloca = true ∨ (E.node V).isGlobal = true ∨
      (E.node V).isArgument = true ∨ (E.node V).isCall = true ∨ (E.node V).isPHI = true) :
    recoverNameOf E fuel rec V name var s
      = if name = E.nameInFile V then some ("0", -1, s)
        else if E.nameInFile V = "" then some ("", -1, setValidFalse s)
        else some (E.nameInFile V, -1, s) := by
  unfold recoverNameOf
  rcases hkind with h | h | h | h | h <;> simp [h]

theorem dispatchKind_named_kind_invalid (E : Env)
    (rec : Nat → String → Int → State → Option Res) (V : Nat) (ctx : String) (var : Int)
    (s : State)
    (hkind : (E.node V).isAlloca = true ∨ (E.node V).isGlobal = true ∨
      (E.node V).isArgument = true ∨ (E.node V).isCall = true ∨ (E.node V).isPHI = true)
    (hs : s.valid = false) (hgen : KeepsInvalid E.getGenericExp) :
    ∃ r, dispatchKind E rec V ctx var s = some r ∧ r.2.2.valid = false := by
  cases hnode : E.node V with
  | alloca sz =>
    refine ⟨memoize V (E.getGenericExp V ctx var s), ?_, ?_⟩
    · simp [dispatchKind, hnode, Node.isConstant, Node.isInstruction, Node.isPHI,
        Node.isCall, Node.isICmp]
    · simp only [memoize, insertComputedValue_valid]
      exact hgen V ctx var s hs
  | global =>
    cases hc : E.getUniqueConstantInteger V with
    | some value =>
      refine ⟨memoize V (toString value, var, s), ?_, ?_⟩
      · simp [dispatchKind, hnode, Node.isConstant, hc]
      · simp only [memoize, insertComputedValue_valid]
        exact hs
    | none =>
      exact ⟨("0", var, setValidFalse s), by simp [dispatchKind, hnode, Node.isConstant, hc],
        rfl⟩
  | argument =>
    exact ⟨("", var, setValidFalse s),
      by simp [dispatchKind, hnode, Node.isConstant, Node.isInstruction], rfl⟩
  | phi xs =>
    exact ⟨("", var, setValidFalse s),
      by simp [dispatchKind, hnode, Node.isConstant, Node.isInstruction, Node.isPHI], rfl⟩
  | call ops =>
    by_cases hm : E.isMallocCall V = true
    · by_cases hne : E.nameInFile V = ctx
      · refine ⟨memoize V ("0", var, if E.nameInFile V = "" then setValidFalse s else s),
          ?_, ?_⟩
        · simp [dispatchKind, hnode, Node.isConstant, Node.isInstruction, Node.isPHI,
            Node.isCall, hm, hne]
        · simp only [memoize, insertComputedValue_valid]
          split
          · rfl
          · exact hs
      · refine ⟨memoize V (E.nameInFile V, var,
          if E.nameInFile V = "" then setValidFalse s else s), ?_, ?_⟩
        · simp [dispatchKind, hnode, Node.isConstant, Node.isInstruction, Node.isPHI,
            Node.isCall, hm, hne]
        · simp only [memoize, insertComputedValue_valid]
          split
          · rfl
          · exact hs
    · exact ⟨("", var, setValidFalse s),
        by simp [dispatchKind, hnode, Node.isConstant, Node.isInstruction, Node.isPHI,
          Node.isCall, hm], rfl⟩
  | _ =>
    simp [hnode, Node.isAlloca, Node.isGlobal, Node.isArgument, Node.isCall, Node.isPHI]
      at hkind

/-- C14, as stated, fails twice: the unnamed global 4 expanded under the empty
context name returns `0` and the session stays valid; and the load 11, which
has no declared name, recovers to `i` under the context name `x` and the
session stays valid. -/
theorem getAccessStringMD_missing_name_valid :
    (structEnv.node 4).isGlobal = true ∧ structEnv.nameInFile 4 = "" ∧
      getAccessStringMD structEnv 1 4 "" 7 freshState
        = some ("0", -1, ⟨true, [(4, -1, "0")], [], 0⟩) ∧
      (arrayEnv.node 11).isLoad = true ∧ arrayEnv.nameInFile 11 = "" ∧
      getAccessStringMD arrayEnv 2 11 "x" 7 freshState
        = some ("i", -1, ⟨true, [(11, -1, "i"), (1, -1, "i")], [], 0⟩) := by
  decide

/-- C14, amended: in a valid session, for an allocation, global, parameter,
call or phi that is not memoized and has no original or phi name, if the
declared name is empty and the context name is not, the dispatcher returns
with the session marked invalid; the generic builder is assumed never to
revive an invalid session. -/
theorem getAccessStringMD_missing_name (E : Env) (fuel V : Nat) (ctx : String)
    (var var1 : Int) (s s1 : State)
    (hv : s.valid = true) (hmemo : selectComputedValue s V = none)
    (horig : E.getOriginalName V = "")
    (hphi : E.getPHINode V ctx (-1) s = ("", var1, s1))
    (hkind : (E.node V).isAlloca = true ∨ (E.node V).isGlobal = true ∨
      (E.node V).isArgument = true ∨ (E.node V).isCall = true ∨ (E.node V).isPHI = true)
    (hname : E.nameInFile V = "") (hctx : ctx ≠ "")
    (hgen : KeepsInvalid E.getGenericExp) :
    ∃ r, getAccessStringMD E (fuel + 1) V ctx var s = some r ∧ r.2.2.valid = false := by
  have hrec : recoverNameOf E fuel (getAccessStringMD E fuel) V ctx var1 s1
      = some ("", -1, setValidFalse s1) := by
    rw [recoverNameOf_named_kind E fuel _ V ctx var1 s1 hkind]
    simp [hname, hctx]
  obtain ⟨r, hr, hrv⟩ := dispatchKind_named_kind_invalid E (getAccessStringMD E fuel) V ctx
    (-1) (setValidFalse s1) hkind rfl hgen
  exact ⟨r, by simp [getAccessStringMD, isValid, hv, hmemo, horig, hphi, hrec, hr], hrv⟩

/-- C14, amended, at the unnamed global 4 under the context name `x`. -/
theorem getAccessStringMD_missing_name_witness :
    freshState.valid = true ∧ (structEnv.node 4).isGlobal = true ∧
      structEnv.nameInFile 4 = "" ∧ "x" ≠ "" ∧
      getAccessStringMD structEnv (0 + 1) 4 "x" 7 freshState = some ("0", -1, deadState) ∧
      ∃ r, getAccessStringMD structEnv (0 + 1) 4 "x" 7 freshState = some r ∧
        r.2.2.valid = false :=
  ⟨rfl, rfl, rfl, by decide, by decide,
    getAccessStringMD_missing_name structEnv 0 4 "x" 7 (-1) freshState freshState rfl rfl rfl
      rfl (Or.inr (Or.inl rfl)) rfl (by decide) (fun _ _ _ _ h => h)⟩

theorem recoverNameOf_other_kind (E : Env) (fuel : Nat)
    (rec : Nat → String → Int → State → Option Res) (V : Nat) (name : String) (var : Int)
    (s : State)
    (hk : (E.node V).isLoad = false ∧ (E.node V).isStore = false ∧
      (E.node V).isAlloca = false ∧ (E.node V).isGlobal = false ∧
      (E.node V).isGEP = false ∧ (E.node V).isArgument = false ∧
      (E.node V).isCall = false ∧ (E.node V).isPHI = false) :
    recoverNameOf E fuel rec V name var s = some ("", var, s) := by
  obtain ⟨h1, h2, h3, h4, h5, h6, h7, h8⟩ := hk
  simp [recoverNameOf, h1, h2, h3, h4, h5, h6, h7, h8]

/-- C15, as stated, fails for a floating-point comparison: value 21 is
`fcmp i, j`, the session is valid, the value is not memoized and has no
original or phi name, yet the dispatcher hands it to the generic builder and
memoizes the result under it. -/
theorem getAccessStringMD_fcmp_memoized :
    (fcmpEnv.node 21).isCmp = true ∧ (fcmpEnv.node 21).isInstruction = true ∧
      freshState.valid = true ∧ selectComputedValue freshState 21 = none ∧
      fcmpEnv.getOriginalName 21 = "" ∧
      fcmpEnv.getPHINode 21 "x" (-1) freshState = ("", -1, freshState) ∧
      getAccessStringMD fcmpEnv 1 21 "x" 7 freshState
        = some (memoize 21 (fcmpEnv.getGenericExp 21 "x" (-1) freshState)) ∧
      getAccessStringMD fcmpEnv 1 21 "x" 7 freshState
        = some ("", -1, ⟨true, [(21, -1, "")], [], 0⟩) ∧
      selectComputedValue ⟨true, [(21, -1, "")], [], 0⟩ 21 = some (-1, "") := by
  decide

/-- C15, amended: in a valid session, for a value that is not memoized and
has no original or phi name: an integer comparison returns the empty text
and the session the phi lookup left, with nothing memoized and the flag
untouched; a value that is neither a constant nor an instruction, once the
name-recovery path produced no text, returns the empty text and the session
is marked invalid. -/
theorem getAccessStringMD_comparison_and_non_instruction (E : Env) (fuel V : Nat)
    (ctx : String) (var var1 : Int) (s s1 : State)
    (hv : s.valid = true) (hmemo : selectComputedValue s V = none)
    (horig : E.getOriginalName V = "")
    (hphi : E.getPHINode V ctx (-1) s = ("", var1, s1)) :
    ((E.node V).isICmp = true →
        getAccessStringMD E (fuel + 1) V ctx var s = some ("", var1, s1)) ∧
      ((E.node V).isConstant = false → (E.node V).isInstruction = false →
        ∀ (var2 : Int) (s2 : State),
          recoverNameOf E fuel (getAccessStringMD E fuel) V ctx var1 s1 = some ("", var2, s2) →
          getAccessStringMD E (fuel + 1) V ctx var s = some ("", var2, setValidFalse s2) ∧
            (setValidFalse s2).valid = false) := by
  constructor
  · intro hic
    have hrec : recoverNameOf E fuel (getAccessStringMD E fuel) V ctx var1 s1
        = some ("", var1, s1) := by
      apply recoverNameOf_other_kind
      cases hnode : E.node V <;> simp_all [Node.isICmp, Node.isLoad, Node.isStore,
        Node.isAlloca, Node.isGlobal, Node.isGEP, Node.isArgument, Node.isCall, Node.isPHI]
    have hd : dispatchKind E (getAccessStringMD E fuel) V ctx var1 s1 = some ("", var1, s1) := by
      cases hnode : E.node V <;> simp_all [Node.isICmp, dispatchKind, Node.isConstant,
        Node.isInstruction, Node.isPHI, Node.isCall]
    simp [getAccessStringMD, isValid, hv, hmemo, horig, hphi, hrec, hd]
  · intro hc hi var2 s2 hrec
    have hd : dispatchKind E (getAccessStringMD E fuel) V ctx var2 s2
        = some ("", var2, setValidFalse s2) := by
      simp [dispatchKind, hc, hi]
    exact ⟨by simp [getAccessStringMD, isValid, hv, hmemo, horig, hphi, hrec, hd], rfl⟩

/-- C15, amended, at the integer comparison 8 and at value 20, which is no
instruction. -/
theorem getAccessStringMD_comparison_and_non_instruction_witness :
    freshState.valid = true ∧ (arrayEnv.node 8).isICmp = true ∧
      getAccessStringMD arrayEnv (0 + 1) 8 "x" 7 freshState = some ("", -1, freshState) ∧
      (arrayEnv.node 20).isConstant = false ∧ (arrayEnv.node 20).isInstruction = false ∧
      getAccessStringMD arrayEnv (0 + 1) 20 "x" 7 freshState
        = some ("", -1, setValidFalse freshState) :=
  ⟨rfl, rfl,
    (getAccessStringMD_comparison_and_non_instruction arrayEnv 0 8 "x" 7 (-1) freshState
      freshState rfl rfl rfl rfl).1 rfl,
    rfl, rfl,
    ((getAccessStringMD_comparison_and_non_instruction arrayEnv 0 20 "x" 7 (-1) freshState
      freshState rfl rfl rfl rfl).2 rfl rfl (-1) freshState (by decide)).1⟩

/-- C16: in a valid session, for a constant that is not memoized, has no
original or phi name and for which the name-recovery path yields no text:
when the evaluator succeeds the dispatcher returns the decimal text of its
integer and memoizes it; otherwise it returns `0`, marks the session invalid
and leaves the memo cache as it was. -/
theorem getAccessStringMD_constant (E : Env) (fuel V : Nat) (ctx : String)
    (var var1 var2 : Int) (s s1 s2 : State)
    (hv : s.valid = true) (hmemo : selectComputedValue s V = none)
    (horig : E.getOriginalName V = "")
    (hphi : E.getPHINode V ctx (-1) s = ("", var1, s1))
    (hconst : (E.node V).isConstant = true)
    (hname : recoverNameOf E fuel (getAccessStringMD E fuel) V ctx var1 s1
      = some ("", var2, s2)) :
    (∀ value : Int, E.getUniqueConstantInteger V = some value →
        getAccessStringMD E (fuel + 1) V ctx var s
          = some (toString value, var2, insertComputedValue s2 V var2 (toString value)) ∧
        (selectComputedValue s2 V = none →
          selectComputedValue (insertComputedValue s2 V var2 (toString value)) V
            = some (var2, toString value))) ∧
      (E.getUniqueConstantInteger V = none →
        getAccessStringMD E (fuel + 1) V ctx var s = some ("0", var2, setValidFalse s2) ∧
          (setValidFalse s2).valid = false ∧
          (setValidFalse s2).ComputedValues = s2.ComputedValues) := by
  constructor
  · intro value hval
    have hd : dispatchKind E (getAccessStringMD E fuel) V ctx var2 s2
        = some (memoize V (toString value, var2, s2)) := by
      simp [dispatchKind, hconst, hval]
    exact ⟨by simp [getAccessStringMD, isValid, hv, hmemo, horig, hphi, hname, hd, memoize],
      selectComputedValue_insert s2 V var2 (toString value)⟩
  · intro hnone
    have hd : dispatchKind E (getAccessStringMD E fuel) V ctx var2 s2
        = some ("0", var2, setValidFalse s2) := by
      simp [dispatchKind, hconst, hnone]
    exact ⟨by simp [getAccessStringMD, isValid, hv, hmemo, horig, hphi, hname, hd], rfl, rfl⟩

/-- C16 at the constant 9, which folds to 1, and the constant 7, which does not fold. -/
theorem getAccessStringMD_constant_witness :
    freshState.valid = true ∧ (arrayEnv.node 9).isConstant = true ∧
      arrayEnv.getUniqueConstantInteger 9 = some 1 ∧
      getAccessStringMD arrayEnv (0 + 1) 9 "x" 7 freshState
        = some ("1", -1, ⟨true, [(9, -1, "1")], [], 0⟩) ∧
      (arrayEnv.node 7).isConstant = true ∧ arrayEnv.getUniqueConstantInteger 7 = none ∧
      getAccessStringMD arrayEnv (0 + 1) 7 "x" 7 freshState = some ("0", -1, deadState) :=
  ⟨rfl, rfl, rfl,
    ((getAccessStringMD_constant arrayEnv 0 9 "x" 7 (-1) (-1) freshState freshState freshState
      rfl rfl rfl rfl rfl (by decide)).1 1 rfl).1,
    rfl, rfl,
    ((getAccessStringMD_constant arrayEnv 0 7 "x" 7 (-1) (-1) freshState freshState freshState
      rfl rfl rfl rfl rfl (by decide)).2 rfl).1⟩

/-! ## Nested address computations -/

theorem IndexRun.length_eq {E : Env} {rec : Nat → String → Int → State → Option Res}
    {name : String} {xs : List Nat} {ty ty1 : Ty} {dity dity1 : MD} {s s1 : State}
    {es : List String} (h : IndexRun E rec name xs ty dity s es ty1 dity1 s1) :
    es.length = xs.length := by
  induction h with
  | nil => rfl
  | cons _ _ _ _ ih => simp [ih]

/-- C17, as stated, fails for an index that comes back with a slot: in
`gep (gep A, i, j), i, j` with `j` memoized as slot 3 and text `t`, the
pointer operand recovers to `A[i][NAME[3]]` and the second index to the text
`t`, yet the result ends in `[NAME[3]]`, not in `[t]`. -/
theorem recoverGEPMD_skips_first_index_slot :
    nestedEnv.node 13 = .gep 3 [1, 2] ∧ (nestedEnv.node 3).isGEP = true ∧
      [1, 2].all (fun i => (nestedEnv.node i).isZeroConstInt) = false ∧
      getAccessStringMD nestedEnv 2 3 "x" (-1) ⟨true, [(2, 3, "t")], [], 0⟩
        = some ("A[i][NAME[3]]", -1,
            ⟨true, [(3, -1, "A[i][NAME[3]]"), (1, -1, "i"), (0, -1, "A"), (2, 3, "t")],
              [], 0⟩) ∧
      getAccessStringMD nestedEnv 2 2 "x" (-1)
          ⟨true, [(3, -1, "A[i][NAME[3]]"), (1, -1, "i"), (0, -1, "A"), (2, 3, "t")], [], 0⟩
        = some ("t", 3,
            ⟨true, [(3, -1, "A[i][NAME[3]]"), (1, -1, "i"), (0, -1, "A"), (2, 3, "t")],
              [], 0⟩) ∧
      recoverGEPMD nestedEnv 2 (getAccessStringMD nestedEnv 2) 13 "x" 7
          ⟨true, [(2, 3, "t")], [], 0⟩
        = some ("A[i][NAME[3]][NAME[3]]", 7,
            ⟨true, [(3, -1, "A[i][NAME[3]]"), (1, -1, "i"), (0, -1, "A"), (2, 3, "t")],
              [], 0⟩) ∧
      "A[i][NAME[3]][NAME[3]]" ≠ "A[i][NAME[3]]" ++ brackets ["t"] := by
  decide

/-- C17, amended: for an address computation with indices `x1 :: xs`, not all
zero constants, whose pointer operand is itself an address computation, with
the routine and debug variable found and no struct level met, the result is
the prefix (the pointer operand's text, or the text `NAME[slot]` when it came
back with a slot) followed by the subscripts of `xs` only, in operand order,
each the recovered text of its index or `NAME[slot]` when that index came
back with a slot: one subscript fewer than indices, and neither the text nor
the session depends on recovering `x1`. -/
theorem recoverGEPMD_skips_first_index (E : Env) (fuel V ptr b F x1 : Nat) (xs : List Nat)
    (ctx : String) (var opPtr : Int) (s s1 s2 : State) (dity dity1 dity2 : MD)
    (r0 : String) (ty2 : Ty) (es : List String)
    (hn : E.node V = .gep ptr (x1 :: xs))
    (hnz : (x1 :: xs).all (fun i => (E.node i).isZeroConstInt) = false)
    (hptr : (E.node ptr).isGEP = true)
    (hw : walkBasePtr E (decide (E.getOriginalName V ≠ "")) fuel ptr = some b)
    (hF : E.findEnclosingFunc b = some F)
    (hvar : E.findVar b F = some dity) (hd : dity.isDIType = true)
    (hbase : getAccessStringMD E fuel ptr ctx (-1) s = some (r0, opPtr, s1))
    (hd1 : getDITypeElement dity 0 = some dity1)
    (hrun : IndexRun E (getAccessStringMD E fuel) ctx xs
      (E.getInternalType (E.getPointerOperandType V) 0) dity1 s1 es ty2 dity2 s2) :
    recoverGEPMD E fuel (getAccessStringMD E fuel) V ctx var s
        = some ((if opPtr ≠ -1 then ((E.NAME ++ "[") ++ toString opPtr) ++ "]" else r0)
            ++ brackets es, var, s2) ∧
      es.length + 1 = (x1 :: xs).length := by
  have hstart : gepStart E V ptr (x1 :: xs) dity
      = some (xs, E.getInternalType (E.getPointerOperandType V) 0, dity1) := by
    simp [gepStart, hptr, hd1]
  refine ⟨?_, by simp [hrun.length_eq]⟩
  rw [recoverGEPMD_loop hn hnz hw hF hvar hd hbase hstart]
  have h := gepLoop_run hrun [] (if opPtr ≠ -1 then slotText E opPtr else r0)
  rw [List.append_nil] at h
  rw [h]
  simp [gepLoop, slotText]

/-- C17, amended, at `gep (gep A, i, j), i, j`: from a fresh session it
recovers to `A[i][j][j]`, and with `j` memoized as slot 3 to
`A[i][NAME[3]][NAME[3]]`. -/
theorem recoverGEPMD_skips_first_index_witness :
    nestedEnv.node 13 = .gep 3 [1, 2] ∧ (nestedEnv.node 3).isGEP = true ∧
      [1, 2].all (fun i => (nestedEnv.node i).isZeroConstInt) = false ∧
      getAccessStringMD nestedEnv 2 3 "x" (-1) freshState
        = some ("A[i][j]", -1,
            ⟨true, [(3, -1, "A[i][j]"), (2, -1, "j"), (1, -1, "i"), (0, -1, "A")], [], 0⟩) ∧
      recoverGEPMD nestedEnv 2 (getAccessStringMD nestedEnv 2) 13 "x" 7 freshState
        = some ("A[i][j][j]", 7,
            ⟨true, [(3, -1, "A[i][j]"), (2, -1, "j"), (1, -1, "i"), (0, -1, "A")], [], 0⟩) ∧
      recoverGEPMD nestedEnv 2 (getAccessStringMD nestedEnv 2) 13 "x" 7
          ⟨true, [(2, 3, "t")], [], 0⟩
        = some ("A[i][NAME[3]][NAME[3]]", 7,
            ⟨true, [(3, -1, "A[i][NAME[3]]"), (1, -1, "i"), (0, -1, "A"), (2, 3, "t")],
              [], 0⟩) := by
  have hbase : getAccessStringMD nestedEnv 2 3 "x" (-1) freshState
      = some ("A[i][j]", -1,
          ⟨true, [(3, -1, "A[i][j]"), (2, -1, "j"), (1, -1, "i"), (0, -1, "A")], [], 0⟩) := by
    decide
  have h1 : IndexRun nestedEnv (getAccessStringMD nestedEnv 2) "x" [2] 0 (.basic "int")
      ⟨true, [(3, -1, "A[i][j]"), (2, -1, "j"), (1, -1, "i"), (0, -1, "A")], [], 0⟩ ["j"] 0
      (.basic "int")
      ⟨true, [(3, -1, "A[i][j]"), (2, -1, "j"), (1, -1, "i"), (0, -1, "A")], [], 0⟩ :=
    IndexRun.cons (e := "j") (by decide)
      (by decide : _ = some (_, (-1 : Int), _)) (by rfl) (IndexRun.nil _ _ _)
  have h := recoverGEPMD_skips_first_index nestedEnv 2 13 3 0 0 1 [2] "x" 7 (-1) freshState
    ⟨true, [(3, -1, "A[i][j]"), (2, -1, "j"), (1, -1, "i"), (0, -1, "A")], [], 0⟩
    ⟨true, [(3, -1, "A[i][j]"), (2, -1, "j"), (1, -1, "i"), (0, -1, "A")], [], 0⟩
    (.derived (.basic "int")) (.basic "int") (.basic "int") "A[i][j]" 0 ["j"]
    rfl (by decide) rfl rfl rfl rfl rfl hbase rfl h1
  have kbase : getAccessStringMD nestedEnv 2 3 "x" (-1) ⟨true, [(2, 3, "t")], [], 0⟩
      = some ("A[i][NAME[3]]", -1,
          ⟨true, [(3, -1, "A[i][NAME[3]]"), (1, -1, "i"), (0, -1, "A"), (2, 3, "t")],
            [], 0⟩) := by
    decide
  have k1 : IndexRun nestedEnv (getAccessStringMD nestedEnv 2) "x" [2] 0 (.basic "int")
      ⟨true, [(3, -1, "A[i][NAME[3]]"), (1, -1, "i"), (0, -1, "A"), (2, 3, "t")], [], 0⟩
      ["NAME[3]"] 0 (.basic "int")
      ⟨true, [(3, -1, "A[i][NAME[3]]"), (1, -1, "i"), (0, -1, "A"), (2, 3, "t")], [], 0⟩ :=
    IndexRun.cons (e := "t") (by decide)
      (by decide : _ = some (_, (3 : Int), _)) (by rfl) (IndexRun.nil _ _ _)
  have k := recoverGEPMD_skips_first_index nestedEnv 2 13 3 0 0 1 [2] "x" 7 (-1)
    ⟨true, [(2, 3, "t")], [], 0⟩
    ⟨true, [(3, -1, "A[i][NAME[3]]"), (1, -1, "i"), (0, -1, "A"), (2, 3, "t")], [], 0⟩
    ⟨true, [(3, -1, "A[i][NAME[3]]"), (1, -1, "i"), (0, -1, "A"), (2, 3, "t")], [], 0⟩
    (.derived (.basic "int")) (.basic "int") (.basic "int") "A[i][NAME[3]]" 0 ["NAME[3]"]
    rfl (by decide) rfl rfl rfl rfl rfl kbase rfl k1
  exact ⟨rfl, rfl, by decide, hbase, h.1, k.1⟩

/-! ## Integer-quotient factor -/

theorem doubleText_eq_toString (n : Int) (q : Nat) (h : 0 ≤ n ∨ 0 < q) :
    doubleText (decide (n < 0)) (n.natAbs * q) = toString (n * (q : Int)) ++ ".000000" := by
  by_cases hn : 0 ≤ n
  · obtain ⟨m, rfl⟩ := Int.eq_ofNat_of_zero_le hn
    have hlt : ¬ ((m : Int) < 0) := by omega
    have hmul : ((m : Int) * (q : Int)) = ((m * q : Nat) : Int) := by push_cast; rfl
    simp only [doubleText, hlt, decide_False, Int.natAbs_ofNat, hmul]
    rfl
  · have hq : 0 < q := by
      rcases h with h | h
      · exact absurd h hn
      · exact h
    have hlt : n < 0 := by omega
    obtain ⟨m, rfl⟩ : ∃ m : Nat, n = Int.negSucc m := by
      cases n with
      | ofNat k => exact absurd (Int.ofNat_nonneg k) hn
      | negSucc m => exact ⟨m, rfl⟩
    have hk : (m + 1) * q = ((m + 1) * q - 1) + 1 := by
      have : 0 < (m + 1) * q := Nat.mul_pos (Nat.succ_pos m) hq
      omega
    have hmul : Int.negSucc m * (q : Int) = Int.negSucc ((m + 1) * q - 1) := by
      rw [Int.negSucc_eq, Int.negSucc_eq]
      have : (((m + 1) * q - 1 : Nat) : Int) + 1 = ((m + 1) * q : Nat) := by omega
      rw [this]
      push_cast
      ring
    simp only [doubleText, hlt, decide_True, Int.natAbs_negSucc, hmul, if_true]
    show _ = ("-" ++ toString (((m + 1) * q - 1).succ)) ++ ".000000"
    have hs : ((m + 1) * q - 1).succ = (m + 1) * q := by omega
    rw [hs]

theorem roundDouble_of_le (k : Nat) (h : k ≤ 9007199254740992) : roundDouble k = k := by
  simp [roundDouble, h]

/-- C19, as stated, fails: the folded text is not the text of
`n * (s2 div s1)` for every literal. For the literal 2^53 + 1 between types
of size 1 the product 9007199254740993 is rounded to double precision and
the text is `9007199254740992.000000`; for the literal -5 from a 4-byte to a
1-byte type the product is 0 and the text is `-0.000000`. -/
theorem recoverBitcastOf_fold_rounds :
    bitcastFactor bigEnv 0 = some (1 / 1) ∧
      bigEnv.getAccessString 1 "x" (-1) freshState = ("9007199254740993", -1, freshState) ∧
      bigEnv.TryConvertToInteger "9007199254740993" = some 9007199254740993 ∧
      toString ((9007199254740993 : Int) * ((1 / 1 : Nat) : Int)) = "9007199254740993" ∧
      recoverBitcastOf bigEnv 0 "x" (-1) freshState
        = some ("9007199254740992.000000", -1, freshState) ∧
      bitcastFactor bigEnv 2 = some (1 / 4) ∧
      bigEnv.getAccessString 3 "x" (-1) freshState = ("-5", -1, freshState) ∧
      bigEnv.TryConvertToInteger "-5" = some (-5) ∧
      toString ((-5 : Int) * ((1 / 4 : Nat) : Int)) = "0" ∧
      recoverBitcastOf bigEnv 2 "x" (-1) freshState = some ("-0.000000", -1, freshState) := by
  decide

/-- C19, amended: with a source size `s1 > 0` and a destination size `s2`,
both below 2^32, the factor is the quotient `s2 / s1` (0 when `s2 < s1`);
when the operand folds to a literal `n`, the returned text is the six-decimal
text of the double product, the literal and then the product each rounded to
double precision, with the sign of `n`, and nothing is memoized; when neither
`|n|` nor `|n| * (s2 / s1)` exceeds 2^53 nothing is rounded, and the text is
the decimal text of `n * (s2 / s1)` followed by `.000000` whenever `n` is not
negative or the factor is not zero. -/
theorem bitcastFactor_quotient (E : Env) (V op : Nat) (name : String) (var : Int)
    (s : State) (s1 s2 : Nat)
    (hn : E.node V = .bitcast op) (ho : E.getOriginalName V = "")
    (h1 : E.getSizeToType (E.getSrcTy V) = s1) (h2 : E.getSizeToType (E.getDestTy V) = s2)
    (hpos : 0 < s1) (hb1 : s1 < 4294967296) (hb2 : s2 < 4294967296) :
    bitcastFactor E V = some (s2 / s1) ∧
      (s2 < s1 → bitcastFactor E V = some 0) ∧
      (∀ (t : String) (n : Int) (s3 : State),
        E.getAccessString op name var s = (t, -1, s3) →
        E.TryConvertToInteger t = some n →
        recoverBitcastOf E V name var s
          = some (doubleText (decide (n < 0))
              (roundDouble (roundDouble n.natAbs * (s2 / s1))), -1, s3) ∧
        (n.natAbs ≤ 9007199254740992 → n.natAbs * (s2 / s1) ≤ 9007199254740992 →
          recoverBitcastOf E V name var s
            = some (doubleText (decide (n < 0)) (n.natAbs * (s2 / s1)), -1, s3) ∧
          (0 ≤ n ∨ 0 < s2 / s1 → doubleText (decide (n < 0)) (n.natAbs * (s2 / s1))
            = toString (n * ((s2 / s1 : Nat) : Int)) ++ ".000000"))) := by
  have hf : bitcastFactor E V = some (s2 / s1) := by
    have hne : s1 ≠ 0 := Nat.pos_iff_ne_zero.mp hpos
    simp [bitcastFactor, h1, h2, Nat.mod_eq_of_lt hb1, Nat.mod_eq_of_lt hb2, hne]
  refine ⟨hf, ?_, ?_⟩
  · intro hlt
    rw [hf, Nat.div_eq_of_lt hlt]
  · intro t n s3 hop hint
    have hres : recoverBitcastOf E V name var s
        = some (doubleText (decide (n < 0))
            (roundDouble (roundDouble n.natAbs * (s2 / s1))), -1, s3) := by
      simp [recoverBitcastOf, hn, ho, hf, hop, hint, foldedText]
    refine ⟨hres, ?_⟩
    intro hn1 hn2
    constructor
    · rw [hres, roundDouble_of_le _ hn1, roundDouble_of_le _ hn2]
    · exact doubleText_eq_toString n (s2 / s1)

/-- C19, amended, at the 1-byte to 4-byte reinterpretation of the literal `10`. -/
theorem bitcastFactor_quotient_witness :
    widenEnv.node 0 = .bitcast 1 ∧
      bitcastFactor widenEnv 0 = some (4 / 1) ∧
      recoverBitcastOf widenEnv 0 "x" (-1) freshState
        = some (doubleText (decide ((10 : Int) < 0)) ((10 : Int).natAbs * (4 / 1)), -1,
            freshState) ∧
      recoverBitcastOf widenEnv 0 "x" (-1) freshState = some ("40.000000", -1, freshState) :=
  have h := bitcastFactor_quotient widenEnv 0 1 "x" (-1) freshState 1 4 rfl rfl rfl rfl
    (by decide) (by decide) (by decide)
  ⟨rfl, h.1, ((h.2.2 "10" 10 freshState rfl rfl).2 (by decide) (by decide)).1, by decide⟩

/-! ## Ultimate base pointer -/

end RecoverPointerMD
